import Mathlib

/-!
Verification of the Gaussian-splat scene decoder and camera navigator of
`src/frontend/src/components/GaussianSplatViewer.tsx` (first variant,
lines 1-428).

Modelling conventions:
* JavaScript numbers (IEEE-754 doubles) are modelled by `JF`: an exact real
  number or one of the special values NaN, +Infinity, -Infinity.  Rounding
  and overflow of the double format are not modelled (arithmetic on finite
  values is exact real arithmetic); the sign of zero is not modelled (the
  code never divides by a finite zero on any reachable path).
* Byte buffers are `List Nat` (each entry one byte).  Strings produced by
  `TextDecoder` are modelled as lists of code points (`List Nat`); bytes
  ≥ 0x80 decode to the replacement character 0xFFFD (multi-byte UTF-8
  sequences are not reassembled - no claim depends on non-ASCII header
  text).  `String.trim` semantics are modelled over the ASCII whitespace
  characters (the Unicode-only members of JavaScript's whitespace class
  cannot be produced by the byte-level decoder above).
* 32-bit floats read by `DataView.getFloat32` are decoded bit-exactly from
  their four bytes into a `JF` (the float-to-real map is exact).
* An out-of-bounds `DataView` read (which throws in JavaScript) is modelled
  by an `Option`: `none` = exception; the top-level result distinguishes
  `crash` (an exception escaped the parser) from `failure` (the function
  returned `null`) and `success`.
-/

/-- A JavaScript number: a finite (exact) real, NaN, or a signed infinity. -/
inductive JF where
  | fin : ℝ → JF
  | nan : JF
  | inf : JF
  | ninf : JF

namespace JF

/-- Shape test used by `Number.isFinite`. -/
def isFinite : JF → Bool
  | fin _ => true
  | _ => false

/-- Value is a finite real (propositional form). -/
def IsFin (v : JF) : Prop := ∃ x : ℝ, v = fin x

end JF

/-- JavaScript unary minus. -/
def jneg : JF → JF
  | .fin x => .fin (-x)
  | .nan => .nan
  | .inf => .ninf
  | .ninf => .inf

/-- JavaScript addition (`Infinity + -Infinity = NaN`, NaN propagates). -/
def jadd : JF → JF → JF
  | .nan, _ => .nan
  | _, .nan => .nan
  | .inf, .ninf => .nan
  | .ninf, .inf => .nan
  | .inf, _ => .inf
  | _, .inf => .inf
  | .ninf, _ => .ninf
  | _, .ninf => .ninf
  | .fin x, .fin y => .fin (x + y)

/-- JavaScript subtraction. -/
def jsub (a b : JF) : JF := jadd a (jneg b)

open Classical in
/-- JavaScript multiplication (`Infinity * 0 = NaN`, NaN propagates). -/
noncomputable def jmul : JF → JF → JF
  | .nan, _ => .nan
  | _, .nan => .nan
  | .inf, .inf => .inf
  | .inf, .ninf => .ninf
  | .ninf, .inf => .ninf
  | .ninf, .ninf => .inf
  | .inf, .fin y => if 0 < y then .inf else if y < 0 then .ninf else .nan
  | .ninf, .fin y => if 0 < y then .ninf else if y < 0 then .inf else .nan
  | .fin x, .inf => if 0 < x then .inf else if x < 0 then .ninf else .nan
  | .fin x, .ninf => if 0 < x then .ninf else if x < 0 then .inf else .nan
  | .fin x, .fin y => .fin (x * y)

open Classical in
/-- JavaScript division.  Division by a finite zero uses the (unsigned)
+0 convention: `x / 0` is `+Infinity`/`-Infinity` by the sign of `x`, and
`0 / 0 = NaN`.  No reachable code path divides by a finite zero. -/
noncomputable def jdiv : JF → JF → JF
  | .nan, _ => .nan
  | _, .nan => .nan
  | .inf, .inf => .nan
  | .inf, .ninf => .nan
  | .ninf, .inf => .nan
  | .ninf, .ninf => .nan
  | .inf, .fin y => if 0 ≤ y then .inf else .ninf
  | .ninf, .fin y => if 0 ≤ y then .ninf else .inf
  | .fin _, .inf => .fin 0
  | .fin _, .ninf => .fin 0
  | .fin x, .fin y =>
    if y = 0 then (if x = 0 then .nan else if 0 < x then .inf else .ninf)
    else .fin (x / y)

/-- JavaScript `Math.min` (NaN if either argument is NaN). -/
noncomputable def jmin : JF → JF → JF
  | .nan, _ => .nan
  | _, .nan => .nan
  | .ninf, _ => .ninf
  | _, .ninf => .ninf
  | .inf, b => b
  | a, .inf => a
  | .fin x, .fin y => .fin (min x y)

/-- JavaScript `Math.max` (NaN if either argument is NaN). -/
noncomputable def jmax : JF → JF → JF
  | .nan, _ => .nan
  | _, .nan => .nan
  | .inf, _ => .inf
  | _, .inf => .inf
  | .ninf, b => b
  | a, .ninf => a
  | .fin x, .fin y => .fin (max x y)

open Classical in
/-- JavaScript `Math.sqrt` (NaN on negative input). -/
noncomputable def jsqrt : JF → JF
  | .fin x => if x < 0 then .nan else .fin (Real.sqrt x)
  | .inf => .inf
  | .ninf => .nan
  | .nan => .nan

/-- JavaScript `Math.exp`. -/
noncomputable def jexp : JF → JF
  | .fin x => .fin (Real.exp x)
  | .inf => .inf
  | .ninf => .fin 0
  | .nan => .nan

/-- JavaScript `Math.cos` (NaN on non-finite input). -/
noncomputable def jcos : JF → JF
  | .fin x => .fin (Real.cos x)
  | _ => .nan

/-- JavaScript `Math.sin` (NaN on non-finite input). -/
noncomputable def jsin : JF → JF
  | .fin x => .fin (Real.sin x)
  | _ => .nan

/-! ### Byte-level text utilities (TextDecoder / trim / startsWith / split / parseInt) -/

/-- Code points of a Lean string literal (all literals used are ASCII). -/
def strBytes (s : String) : List Nat := s.data.map Char.toNat

/-- Model of `new TextDecoder().decode` at the byte level: ASCII bytes map to
themselves, any byte ≥ 0x80 maps to the replacement character U+FFFD. -/
def decodeBytes (bs : List Nat) : List Nat :=
  bs.map (fun b => if b < 128 then b else 0xFFFD)

/-- Whitespace class trimmed by `String.prototype.trim` (ASCII members). -/
def isWsCp (c : Nat) : Bool := c = 9 || c = 10 || c = 11 || c = 12 || c = 13 || c = 32

/-- Model of `String.prototype.trim`. -/
def trimCp (cs : List Nat) : List Nat :=
  ((cs.dropWhile isWsCp).reverse.dropWhile isWsCp).reverse

/-- Decode a byte run and trim it, as `.trim()` after `TextDecoder.decode`. -/
def trimDecode (bs : List Nat) : List Nat := trimCp (decodeBytes bs)

/-- Model of `String.prototype.startsWith`. -/
def startsWithCp (p line : List Nat) : Bool := p.isPrefixOf line

/-- Model of `String.prototype.split(" ")`. -/
def splitSp : List Nat → List (List Nat)
  | [] => [[]]
  | c :: rest =>
    if c = 32 then [] :: splitSp rest
    else
      match splitSp rest with
      | [] => [[c]]
      | l :: ls => (c :: l) :: ls

/-- Numeric value of a run of ASCII digits. -/
def digitsVal (ds : List Nat) : Nat := ds.foldl (fun acc d => acc * 10 + (d - 48)) 0

/-- Model of `parseInt` applied to `split(" ")[idx]`: `none` models the NaN
result (missing token, or no leading digits).  Leading whitespace is skipped
and an optional sign is honoured; the `0x` hex form is not modelled (no
header line uses it). -/
def parseIntJS : Option (List Nat) → Option Int
  | none => none
  | some s =>
    let s1 := s.dropWhile isWsCp
    let (sgn, s2) : Int × List Nat :=
      match s1 with
      | 43 :: t => (1, t)
      | 45 :: t => (-1, t)
      | t => (1, t)
    let ds := s2.takeWhile (fun c => 48 ≤ c && c ≤ 57)
    if ds = [] then none else some (sgn * digitsVal ds)

/-! ### Header scan (GaussianSplatViewer.tsx lines 280-301)

The source iterates an index `i` over the first `min(length, 10000)` bytes,
keeping `lineStart`; at each newline (byte 10) it decodes and trims the slice
`[lineStart, i)`, pushes it, and stops with `headerEnd = i + 1` when the
trimmed line is `end_header`.  Here the un-consumed suffix of the buffer and
the bytes accumulated since `lineStart` are carried explicitly; `pos` is the
index `i`.  A `none` result models the `headerEnd === 0` early return. -/

/-- One step per remaining byte; `cur` holds the bytes of the current line. -/
def headerScanAux : List Nat → Nat → List Nat → List (List Nat) →
    Option (List (List Nat) × Nat)
  | [], _, _, _ => none
  | b :: rest, pos, cur, acc =>
    if 10000 ≤ pos then none
    else if b = 10 then
      let line := trimDecode cur
      if line = strBytes "end_header" then some (acc ++ [line], pos + 1)
      else headerScanAux rest (pos + 1) [] (acc ++ [line])
    else headerScanAux rest (pos + 1) (cur ++ [b]) acc

/-- Header scan over a whole buffer: the collected (trimmed, decoded) header
lines including the sentinel, and the byte offset just after the sentinel's
newline. -/
def headerScan (buffer : List Nat) : Option (List (List Nat) × Nat) :=
  headerScanAux buffer 0 [] []

/-! ### Header interpretation (lines 303-345) -/

/-- A declared property: `name` is `split(" ")[2]` (`none` models the
`undefined` entry pushed when the token is missing), `ptype` is
`split(" ")[1]`. -/
structure PlyProp where
  name : Option (List Nat)
  ptype : List Nat
deriving DecidableEq

/-- Mutable header-parsing state of the source loop. -/
structure HeaderInfo where
  vertexCount : Option Int
  isBinary : Bool
  isLittleEndian : Bool
  properties : List PlyProp
deriving DecidableEq

def initHeader : HeaderInfo :=
  { vertexCount := some 0, isBinary := false, isLittleEndian := true, properties := [] }

/-- One iteration of the `for (const line of headerText)` loop. -/
def interpretLine (h : HeaderInfo) (line : List Nat) : HeaderInfo :=
  if startsWithCp (strBytes "format binary_little_endian") line then
    { h with isBinary := true, isLittleEndian := true }
  else if startsWithCp (strBytes "format binary_big_endian") line then
    { h with isBinary := true, isLittleEndian := false }
  else if startsWithCp (strBytes "element vertex") line then
    { h with vertexCount := parseIntJS ((splitSp line).get? 2) }
  else if startsWithCp (strBytes "property float") line
      || startsWithCp (strBytes "property double") line then
    { h with properties :=
        h.properties ++ [⟨(splitSp line).get? 2, (splitSp line).getD 1 []⟩] }
  else h

def interpretHeader (lines : List (List Nat)) : HeaderInfo :=
  lines.foldl interpretLine initHeader

/-- The `propIndex` record built by `properties.forEach` : assignment in
declaration order, so a repeated name keeps its **last** index. -/
def propIndexF (props : List PlyProp) (nm : List Nat) : Option Nat :=
  props.enum.foldl (fun acc p => if p.2.name = some nm then some p.1 else acc) none

/-- Number of loop iterations of `for (let i = 0; i < vertexCount; i++)`:
zero when `vertexCount` is NaN (`none`) or negative. -/
def loopCount : Option Int → Nat
  | none => 0
  | some n => n.toNat

/-! ### IEEE-754 binary32 decode (DataView.getFloat32) -/

/-- Exact rational value of a binary32 bit pattern whose exponent field is
not all-ones (normal, subnormal or zero). -/
def f32rat (bits : Nat) : ℚ :=
  let sgn : ℚ := if bits / 2 ^ 31 % 2 = 1 then -1 else 1
  let ex : Nat := bits / 2 ^ 23 % 2 ^ 8
  let frac : Nat := bits % 2 ^ 23
  if ex = 0 then sgn * (frac : ℚ) * (2 : ℚ) ^ (-(149 : ℤ))
  else sgn * ((2 ^ 23 + frac : Nat) : ℚ) * (2 : ℚ) ^ ((ex : ℤ) - 150)

/-- JavaScript number denoted by a binary32 bit pattern. -/
noncomputable def f32val (bits : Nat) : JF :=
  let ex := bits / 2 ^ 23 % 2 ^ 8
  let frac := bits % 2 ^ 23
  if ex = 255 then
    (if frac = 0 then (if bits / 2 ^ 31 % 2 = 1 then .ninf else .inf) else .nan)
  else .fin ((f32rat bits : ℚ) : ℝ)

/-- Assemble the 32-bit pattern of the four bytes at `off` in the payload,
in the declared endianness. -/
def bytesToBits (payload : List Nat) (off : Nat) (le : Bool) : Nat :=
  let b0 := payload.getD off 0
  let b1 := payload.getD (off + 1) 0
  let b2 := payload.getD (off + 2) 0
  let b3 := payload.getD (off + 3) 0
  if le then b3 * 2 ^ 24 + b2 * 2 ^ 16 + b1 * 2 ^ 8 + b0
  else b0 * 2 ^ 24 + b1 * 2 ^ 16 + b2 * 2 ^ 8 + b3

/-- Model of `DataView.getFloat32(off, le)` over the payload (the view based
at `headerEnd`):  `none` models the `RangeError` thrown on an out-of-bounds
read. -/
noncomputable def getFloat32 (payload : List Nat) (off : Nat) (le : Bool) : Option JF :=
  if off + 4 ≤ payload.length then some (f32val (bytesToBits payload off le)) else none

/-! ### Per-record decode (lines 355-412) -/

/-- Attributes pushed for one valid vertex: position triple, colour triple,
size, opacity. -/
structure SplatRec where
  px : JF
  py : JF
  pz : JF
  cr : JF
  cg : JF
  cb : JF
  size : JF
  opac : JF

/-- The spherical-harmonic DC constant of line 378, taken at its decimal
literal value. -/
def C0 : ℝ := 0.28209479177387814

/-- Colour channel from a DC term: `Math.max(0, Math.min(1, 0.5 + C0 * f))`. -/
noncomputable def shChan (f : JF) : JF :=
  jmax (.fin 0) (jmin (.fin 1) (jadd (.fin 0.5) (jmul (.fin C0) f)))

open Classical in
/-- Colour channel from a literal colour column: `r > 1 ? r / 255 : r`
(note: no clamp). -/
noncomputable def rgbChan (r : JF) : JF :=
  if (∃ x : ℝ, r = .fin x ∧ 1 < x) ∨ r = .inf then jdiv r (.fin 255) else r

/-- Size from log-scales: `clamp(0.001, 0.1, mean(exp s) * 0.02)`. -/
noncomputable def sizeVal (s0 s1 s2 : JF) : JF :=
  jmax (.fin 0.001) (jmin (.fin 0.1)
    (jmul (jdiv (jadd (jadd (jexp s0) (jexp s1)) (jexp s2)) (.fin 3)) (.fin 0.02)))

/-- Opacity from a logit: `clamp(0.1, 1.0, 1 / (1 + exp(-raw)))`. -/
noncomputable def opacVal (raw : JF) : JF :=
  jmax (.fin 0.1) (jmin (.fin 1.0) (jdiv (.fin 1) (jadd (.fin 1) (jexp (jneg raw)))))

/-- Colour triple of one record: the `in`-guarded spherical-harmonic branch,
else the literal red/green/blue branch, else the neutral-gray default
(lines 371-390).  `none` models a thrown out-of-bounds read. -/
noncomputable def colorsRead (payload : List Nat) (le : Bool)
    (lk : List Nat → Option Nat) (offset : Nat) : Option (JF × JF × JF) :=
  match lk (strBytes "f_dc_0"), lk (strBytes "f_dc_1"), lk (strBytes "f_dc_2") with
  | some i0, some i1, some i2 =>
    match getFloat32 payload (offset + i0 * 4) le,
          getFloat32 payload (offset + i1 * 4) le,
          getFloat32 payload (offset + i2 * 4) le with
    | some f0, some f1, some f2 => some (shChan f0, shChan f1, shChan f2)
    | _, _, _ => none
  | _, _, _ =>
    match lk (strBytes "red"), lk (strBytes "green"), lk (strBytes "blue") with
    | some ir, some ig, some ib =>
      match getFloat32 payload (offset + ir * 4) le,
            getFloat32 payload (offset + ig * 4) le,
            getFloat32 payload (offset + ib * 4) le with
      | some r, some g, some b => some (rgbChan r, rgbChan g, rgbChan b)
      | _, _, _ => none
    | _, _, _ => some (.fin 0.7, .fin 0.7, .fin 0.7)

/-- Size of one record (lines 392-401). -/
noncomputable def sizeRead (payload : List Nat) (le : Bool)
    (lk : List Nat → Option Nat) (offset : Nat) : Option JF :=
  match lk (strBytes "scale_0"), lk (strBytes "scale_1"), lk (strBytes "scale_2") with
  | some i0, some i1, some i2 =>
    match getFloat32 payload (offset + i0 * 4) le,
          getFloat32 payload (offset + i1 * 4) le,
          getFloat32 payload (offset + i2 * 4) le with
    | some s0, some s1, some s2 => some (sizeVal s0 s1 s2)
    | _, _, _ => none
  | _, _, _ => some (.fin 0.01)

/-- Opacity of one record (lines 403-411). -/
noncomputable def opacRead (payload : List Nat) (le : Bool)
    (lk : List Nat → Option Nat) (offset : Nat) : Option JF :=
  match lk (strBytes "opacity") with
  | some oi =>
    match getFloat32 payload (offset + oi * 4) le with
    | some raw => some (opacVal raw)
    | none => none
  | none => some (.fin 0.8)

/-- One iteration body of the vertex loop (after its bounds guard): reads the
position fields, drops the record if any of x, y, z is non-finite
(`some none`), otherwise decodes the optional attribute groups exactly as the
source’s `in`-guarded branches.  The outer `none` models a thrown
out-of-bounds read. -/
noncomputable def processRecord (payload : List Nat) (le : Bool)
    (lk : List Nat → Option Nat) (xi yi zi bpv i : Nat) : Option (Option SplatRec) :=
  let offset := i * bpv
  match getFloat32 payload (offset + xi * 4) le,
        getFloat32 payload (offset + yi * 4) le,
        getFloat32 payload (offset + zi * 4) le with
  | some x, some y, some z =>
    if x.isFinite && y.isFinite && z.isFinite then
      match colorsRead payload le lk offset, sizeRead payload le lk offset,
            opacRead payload le lk offset with
      | some (cr, cg, cb), some sz, some op =>
        some (some ⟨x, y, z, cr, cg, cb, sz, op⟩)
      | _, _, _ => none
    else some none
  | _, _, _ => none

/-- Output accumulator: the four `push`-built arrays and `validCount`. -/
structure SplatAcc where
  positions : List JF
  colors : List JF
  sizes : List JF
  opacities : List JF
  validCount : Nat

def emptyAcc : SplatAcc := ⟨[], [], [], [], 0⟩

def pushRec (acc : SplatAcc) (r : SplatRec) : SplatAcc :=
  ⟨acc.positions ++ [r.px, r.py, r.pz],
   acc.colors ++ [r.cr, r.cg, r.cb],
   acc.sizes ++ [r.size],
   acc.opacities ++ [r.opac],
   acc.validCount + 1⟩

/-- The vertex loop (lines 355-412): `n` counted down from the declared
vertex count, `i` the current record index; the bounds guard
`offset + bytesPerVertex > byteLength` breaks the loop. -/
noncomputable def decodeRecords (payload : List Nat) (le : Bool)
    (lk : List Nat → Option Nat) (xi yi zi bpv : Nat) :
    Nat → Nat → SplatAcc → Option SplatAcc
  | 0, _, acc => some acc
  | n + 1, i, acc =>
    if payload.length < i * bpv + bpv then some acc
    else
      match processRecord payload le lk xi yi zi bpv i with
      | none => none
      | some none => decodeRecords payload le lk xi yi zi bpv n (i + 1) acc
      | some (some r) => decodeRecords payload le lk xi yi zi bpv n (i + 1) (pushRec acc r)

/-! ### Top-level decode (parseGaussianSplatPly, lines 277-428) -/

/-- The decoded `VertexAttributeSet` handed to geometry construction. -/
structure VertexAttributeSet where
  positions : List JF
  colors : List JF
  sizes : List JF
  opacities : List JF

/-- Caller-visible outcome: `crash` = an exception escaped (never happens),
`failure` = the function returned `null` (all failure kinds), `success` =
a geometry was returned. -/
inductive ParseOutcome where
  | crash : ParseOutcome
  | failure : ParseOutcome
  | success : VertexAttributeSet → ParseOutcome

def SplatAcc.toVAS (acc : SplatAcc) : VertexAttributeSet :=
  ⟨acc.positions, acc.colors, acc.sizes, acc.opacities⟩

/-- Everything after the header interpretation: the
`vertexCount === 0 || properties.length === 0` check, the x/y/z presence
check, and the record loop over the payload, with
`bytesPerVertex = properties.length * 4`. -/
noncomputable def parseWithHeader (h : HeaderInfo) (payload : List Nat) :
    ParseOutcome :=
  if h.vertexCount = some 0 ∨ h.properties.length = 0 then .failure
  else
    match propIndexF h.properties (strBytes "x"),
          propIndexF h.properties (strBytes "y"),
          propIndexF h.properties (strBytes "z") with
    | some xi, some yi, some zi =>
      match decodeRecords payload h.isLittleEndian (propIndexF h.properties)
          xi yi zi (h.properties.length * 4) (loopCount h.vertexCount) 0 emptyAcc with
      | none => .crash
      | some acc => if acc.validCount = 0 then .failure else .success acc.toVAS
    | _, _, _ => .failure

/-- Everything after the header scan: header interpretation followed by the
payload decode (the bytes from `headerEnd`). -/
noncomputable def parsePayload (headerText : List (List Nat)) (payload : List Nat) :
    ParseOutcome :=
  parseWithHeader (interpretHeader headerText) payload

/-- The decoder `parseGaussianSplatPly` (lines 277-428); `failure` models the
`null` returns of lines 300, 328, 341 and 418. -/
noncomputable def parseGaussianSplatPly (buffer : List Nat) : ParseOutcome :=
  match headerScan buffer with
  | none => .failure
  | some (headerText, headerEnd) => parsePayload headerText (buffer.drop headerEnd)

/-! ### Navigator: three.js vector/quaternion fragments and the per-frame
movement update (GaussianSplatViewer.tsx lines 12-22 and 101-135).

Only the three.js operations the update calls are modelled, following the
three.js sources: `Vector3.sub`, `.normalize` (`divideScalar(length() || 1)`
where `divideScalar(s)` is `multiplyScalar(1/s)`; `||` takes the 1 branch
when the length is 0 or NaN), `.multiplyScalar`, and
`.applyEuler(new Euler(0, yaw, 0, "YXZ"))`, which is `applyQuaternion` of
`Quaternion.setFromEuler` for the YXZ order. -/

structure Vec3 where
  x : JF
  y : JF
  z : JF

def vsub (a b : Vec3) : Vec3 := ⟨jsub a.x b.x, jsub a.y b.y, jsub a.z b.z⟩

noncomputable def vmulScalar (v : Vec3) (s : JF) : Vec3 :=
  ⟨jmul v.x s, jmul v.y s, jmul v.z s⟩

noncomputable def vlength (v : Vec3) : JF :=
  jsqrt (jadd (jadd (jmul v.x v.x) (jmul v.y v.y)) (jmul v.z v.z))

open Classical in
/-- The `length() || 1` idiom: 0 and NaN are falsy. -/
noncomputable def orOne (a : JF) : JF :=
  if a = .fin 0 ∨ a = .nan then .fin 1 else a

/-- `Vector3.normalize`: divide by `length() || 1` via `multiplyScalar(1/s)`. -/
noncomputable def vnormalize (v : Vec3) : Vec3 :=
  vmulScalar v (jdiv (.fin 1) (orOne (vlength v)))

structure Quat where
  qx : JF
  qy : JF
  qz : JF
  qw : JF

/-- `Quaternion.setFromEuler` for order "YXZ" (three.js formula with
half-angle cosines/sines). -/
noncomputable def quatFromEulerYXZ (ax ay az : JF) : Quat :=
  let c1 := jcos (jdiv ax (.fin 2))
  let c2 := jcos (jdiv ay (.fin 2))
  let c3 := jcos (jdiv az (.fin 2))
  let s1 := jsin (jdiv ax (.fin 2))
  let s2 := jsin (jdiv ay (.fin 2))
  let s3 := jsin (jdiv az (.fin 2))
  ⟨jadd (jmul (jmul s1 c2) c3) (jmul (jmul c1 s2) s3),
   jsub (jmul (jmul c1 s2) c3) (jmul (jmul s1 c2) s3),
   jsub (jmul (jmul c1 c2) s3) (jmul (jmul s1 s2) c3),
   jadd (jmul (jmul c1 c2) c3) (jmul (jmul s1 s2) s3)⟩

/-- `Vector3.applyQuaternion` (three.js: `t = 2 cross(q, v)`,
`v + q.w t + cross(q, t)`). -/
noncomputable def applyQuaternion (v : Vec3) (q : Quat) : Vec3 :=
  let tx := jmul (.fin 2) (jsub (jmul q.qy v.z) (jmul q.qz v.y))
  let ty := jmul (.fin 2) (jsub (jmul q.qz v.x) (jmul q.qx v.z))
  let tz := jmul (.fin 2) (jsub (jmul q.qx v.y) (jmul q.qy v.x))
  ⟨jsub (jadd (jadd v.x (jmul q.qw tx)) (jmul q.qy tz)) (jmul q.qz ty),
   jsub (jadd (jadd v.y (jmul q.qw ty)) (jmul q.qz tx)) (jmul q.qx tz),
   jsub (jadd (jadd v.z (jmul q.qw tz)) (jmul q.qx ty)) (jmul q.qy tx)⟩

/-- `direction.applyEuler(new THREE.Euler(0, yaw, 0, "YXZ"))` (line 116-117). -/
noncomputable def applyEulerY (v : Vec3) (yaw : JF) : Vec3 :=
  applyQuaternion v (quatFromEulerYXZ (.fin 0) yaw (.fin 0))

/-- The camera cage (lines 13-19). -/
structure CageBounds where
  minX : ℝ
  maxX : ℝ
  minZ : ℝ
  maxZ : ℝ
  lockedY : ℝ

def MOVEMENT_BOUNDS : CageBounds :=
  { minX := -2, maxX := 2, minZ := -1, maxZ := 2, lockedY := 0 }

def MOVE_SPEED : ℝ := 2

/-- Currently-held movement keys (`keysRef`). -/
structure Keys where
  forward : Bool
  backward : Bool
  left : Bool
  right : Bool

/-- `Number(bool)`. -/
def boolNum (b : Bool) : JF := .fin (if b then 1 else 0)

/-- `frontVector.set(0, 0, Number(backward) - Number(forward))` (line 107). -/
def frontVec (k : Keys) : Vec3 :=
  ⟨.fin 0, .fin 0, jsub (boolNum k.backward) (boolNum k.forward)⟩

/-- `sideVector.set(Number(left) - Number(right), 0, 0)` (line 108). -/
def sideVec (k : Keys) : Vec3 :=
  ⟨jsub (boolNum k.left) (boolNum k.right), .fin 0, .fin 0⟩

/-- Lines 110-117: normalized key direction scaled by `MOVE_SPEED * delta`
and rotated by the camera yaw. -/
noncomputable def moveDirection (k : Keys) (delta yaw : JF) : Vec3 :=
  applyEulerY
    (vmulScalar (vnormalize (vsub (frontVec k) (sideVec k)))
      (jmul (.fin MOVE_SPEED) delta))
    yaw

/-- One `useFrame` movement update (lines 101-135): early return unless the
pointer is locked; otherwise clamp x and z of `position + direction` to the
cage and lock y.  `yaw` is `camera.rotation.y`, owned by the pointer-look
controls. -/
noncomputable def movementUpdate (isLocked : Bool) (k : Keys) (delta yaw : JF)
    (pos : Vec3) : Vec3 :=
  if isLocked then
    let dir := moveDirection k delta yaw
    ⟨jmax (.fin MOVEMENT_BOUNDS.minX) (jmin (.fin MOVEMENT_BOUNDS.maxX) (jadd pos.x dir.x)),
     .fin MOVEMENT_BOUNDS.lockedY,
     jmax (.fin MOVEMENT_BOUNDS.minZ) (jmin (.fin MOVEMENT_BOUNDS.maxZ) (jadd pos.z dir.z))⟩
  else pos

/-- Initial camera position `camera.position.set(0, 0, 1.5)` (line 43). -/
def initialCameraPosition : Vec3 := ⟨.fin 0, .fin 0, .fin 1.5⟩

/-- Per-frame inputs: lock state, held keys, frame delta, and the yaw the
pointer-look controls have set for this frame. -/
structure FrameInput where
  locked : Bool
  keys : Keys
  delta : JF
  yaw : JF

/-- A sequence of per-frame movement updates. -/
noncomputable def runFrames (init : Vec3) (fs : List FrameInput) : Vec3 :=
  fs.foldl (fun p f => movementUpdate f.locked f.keys f.delta f.yaw p) init

/-- The camera-cage invariant: x in [minX, maxX], y locked, z in [minZ, maxZ]. -/
def inCage (p : Vec3) : Prop :=
  (∃ a : ℝ, p.x = .fin a ∧ MOVEMENT_BOUNDS.minX ≤ a ∧ a ≤ MOVEMENT_BOUNDS.maxX) ∧
  p.y = .fin MOVEMENT_BOUNDS.lockedY ∧
  (∃ c : ℝ, p.z = .fin c ∧ MOVEMENT_BOUNDS.minZ ≤ c ∧ c ≤ MOVEMENT_BOUNDS.maxZ)

/-! ### Scene-load completion handling (lines 192-271)

The `loadGaussianSplat` effect awaits the fetch and parse, then — with no
generation counter, cancellation signal or cleanup function — unconditionally
clears the group's children and installs the freshly parsed scene.  Loads are
numbered by start order; a completion event carries the number of the load
that finished.  The displayed scene is therefore simply the last completion
to arrive. -/

/-- Completion handler of lines 204-263: replaces whatever is displayed,
with no freshness check. -/
def applyCompletion (_displayed : Option Nat) (completed : Nat) : Option Nat :=
  some completed

/-- Displayed scene after a sequence of load completions (in arrival order). -/
def runCompletions (completions : List Nat) : Option Nat :=
  completions.foldl applyCompletion none

/-! ### Evaluation and closure lemmas for the JavaScript-number operations -/

@[simp] theorem jneg_fin (x : ℝ) : jneg (.fin x) = .fin (-x) := rfl

@[simp] theorem jadd_fin (x y : ℝ) : jadd (.fin x) (.fin y) = .fin (x + y) := rfl

@[simp] theorem jsub_fin (x y : ℝ) : jsub (.fin x) (.fin y) = .fin (x + -y) := rfl

@[simp] theorem jmul_fin (x y : ℝ) : jmul (.fin x) (.fin y) = .fin (x * y) := rfl

@[simp] theorem jmin_fin (x y : ℝ) : jmin (.fin x) (.fin y) = .fin (min x y) := rfl

@[simp] theorem jmax_fin (x y : ℝ) : jmax (.fin x) (.fin y) = .fin (max x y) := rfl

@[simp] theorem jcos_fin (x : ℝ) : jcos (.fin x) = .fin (Real.cos x) := rfl

@[simp] theorem jsin_fin (x : ℝ) : jsin (.fin x) = .fin (Real.sin x) := rfl

@[simp] theorem jexp_fin (x : ℝ) : jexp (.fin x) = .fin (Real.exp x) := rfl

@[simp] theorem jneg_nan : jneg .nan = .nan := rfl

@[simp] theorem jadd_nan_left (a : JF) : jadd .nan a = .nan := by cases a <;> rfl

@[simp] theorem jadd_nan_right (a : JF) : jadd a .nan = .nan := by cases a <;> rfl

@[simp] theorem jsub_nan_left (a : JF) : jsub .nan a = .nan := by cases a <;> rfl

@[simp] theorem jsub_nan_right (a : JF) : jsub a .nan = .nan := by cases a <;> rfl

@[simp] theorem jmul_nan_left (a : JF) : jmul .nan a = .nan := by cases a <;> rfl

@[simp] theorem jmul_nan_right (a : JF) : jmul a .nan = .nan := by cases a <;> rfl

@[simp] theorem jmin_nan_left (a : JF) : jmin .nan a = .nan := by cases a <;> rfl

@[simp] theorem jmin_nan_right (a : JF) : jmin a .nan = .nan := by cases a <;> rfl

@[simp] theorem jmax_nan_left (a : JF) : jmax .nan a = .nan := by cases a <;> rfl

@[simp] theorem jmax_nan_right (a : JF) : jmax a .nan = .nan := by cases a <;> rfl

theorem jdiv_fin_of_ne (x y : ℝ) (h : y ≠ 0) :
    jdiv (.fin x) (.fin y) = .fin (x / y) := by
  simp [jdiv, h]

theorem jsqrt_fin_of_nonneg (x : ℝ) (h : 0 ≤ x) :
    jsqrt (.fin x) = .fin (Real.sqrt x) := by
  simp [jsqrt, not_lt.mpr h]

theorem orOne_fin_zero : orOne (.fin 0) = .fin 1 := by simp [orOne]

theorem orOne_fin_of_ne (x : ℝ) (h : x ≠ 0) : orOne (.fin x) = .fin x := by
  simp [orOne, h]

theorem isFin_jneg {a : JF} (ha : a.IsFin) : (jneg a).IsFin := by
  obtain ⟨x, rfl⟩ := ha; exact ⟨-x, rfl⟩

theorem isFin_jadd {a b : JF} (ha : a.IsFin) (hb : b.IsFin) : (jadd a b).IsFin := by
  obtain ⟨x, rfl⟩ := ha; obtain ⟨y, rfl⟩ := hb; exact ⟨x + y, rfl⟩

theorem isFin_jsub {a b : JF} (ha : a.IsFin) (hb : b.IsFin) : (jsub a b).IsFin := by
  obtain ⟨x, rfl⟩ := ha; obtain ⟨y, rfl⟩ := hb; exact ⟨x + -y, rfl⟩

theorem isFin_jmul {a b : JF} (ha : a.IsFin) (hb : b.IsFin) : (jmul a b).IsFin := by
  obtain ⟨x, rfl⟩ := ha; obtain ⟨y, rfl⟩ := hb; exact ⟨x * y, rfl⟩

theorem isFin_jcos {a : JF} (ha : a.IsFin) : (jcos a).IsFin := by
  obtain ⟨x, rfl⟩ := ha; exact ⟨Real.cos x, rfl⟩

theorem isFin_jsin {a : JF} (ha : a.IsFin) : (jsin a).IsFin := by
  obtain ⟨x, rfl⟩ := ha; exact ⟨Real.sin x, rfl⟩

theorem isFin_jdiv_ne {a b : JF} (ha : a.IsFin)
    (hb : ∃ y : ℝ, b = .fin y ∧ y ≠ 0) : (jdiv a b).IsFin := by
  obtain ⟨x, rfl⟩ := ha; obtain ⟨y, rfl, hy⟩ := hb
  exact ⟨x / y, jdiv_fin_of_ne x y hy⟩

/-! ### Finiteness of the movement direction and the cage invariant -/

/-- All three components are finite reals. -/
def Vec3.IsFin (v : Vec3) : Prop := v.x.IsFin ∧ v.y.IsFin ∧ v.z.IsFin

theorem vlength_fin {v : Vec3} (h : v.IsFin) :
    ∃ L : ℝ, vlength v = .fin L ∧ 0 ≤ L := by
  obtain ⟨⟨a, ha⟩, ⟨b, hb⟩, ⟨c, hc⟩⟩ := h
  refine ⟨Real.sqrt (a * a + b * b + c * c), ?_, Real.sqrt_nonneg _⟩
  have hnn : (0 : ℝ) ≤ a * a + b * b + c * c := by
    nlinarith [mul_self_nonneg a, mul_self_nonneg b, mul_self_nonneg c]
  rw [vlength, ha, hb, hc, jmul_fin, jmul_fin, jmul_fin, jadd_fin, jadd_fin,
    jsqrt_fin_of_nonneg _ hnn]

theorem isFin_vnormalize {v : Vec3} (h : v.IsFin) : (vnormalize v).IsFin := by
  obtain ⟨L, hL, _⟩ := vlength_fin h
  have hOr : ∃ y : ℝ, orOne (vlength v) = .fin y ∧ y ≠ 0 := by
    by_cases h0 : L = 0
    · exact ⟨1, by rw [hL, h0, orOne_fin_zero], one_ne_zero⟩
    · exact ⟨L, by rw [hL, orOne_fin_of_ne L h0], h0⟩
  have hs : (jdiv (.fin 1) (orOne (vlength v))).IsFin := isFin_jdiv_ne ⟨1, rfl⟩ hOr
  obtain ⟨⟨a, ha⟩, ⟨b, hb⟩, ⟨c, hc⟩⟩ := h
  exact ⟨isFin_jmul ⟨a, ha⟩ hs, isFin_jmul ⟨b, hb⟩ hs, isFin_jmul ⟨c, hc⟩ hs⟩

theorem isFin_frontVec (k : Keys) : (frontVec k).IsFin :=
  ⟨⟨0, rfl⟩, ⟨0, rfl⟩,
   isFin_jsub ⟨_, rfl⟩ ⟨_, rfl⟩⟩

theorem isFin_sideVec (k : Keys) : (sideVec k).IsFin :=
  ⟨isFin_jsub ⟨_, rfl⟩ ⟨_, rfl⟩, ⟨0, rfl⟩, ⟨0, rfl⟩⟩

theorem isFin_vsub {a b : Vec3} (ha : a.IsFin) (hb : b.IsFin) : (vsub a b).IsFin :=
  ⟨isFin_jsub ha.1 hb.1, isFin_jsub ha.2.1 hb.2.1, isFin_jsub ha.2.2 hb.2.2⟩

theorem isFin_vmulScalar {v : Vec3} {s : JF} (hv : v.IsFin) (hs : s.IsFin) :
    (vmulScalar v s).IsFin :=
  ⟨isFin_jmul hv.1 hs, isFin_jmul hv.2.1 hs, isFin_jmul hv.2.2 hs⟩

/-- All four quaternion components are finite reals. -/
def Quat.IsFin (q : Quat) : Prop := q.qx.IsFin ∧ q.qy.IsFin ∧ q.qz.IsFin ∧ q.qw.IsFin

theorem isFin_quatFromEulerYXZ {ax ay az : JF}
    (hx : ax.IsFin) (hy : ay.IsFin) (hz : az.IsFin) :
    (quatFromEulerYXZ ax ay az).IsFin := by
  have h2 : ∀ a : JF, a.IsFin → (jdiv a (.fin 2)).IsFin := fun a ha =>
    isFin_jdiv_ne ha ⟨2, rfl, two_ne_zero⟩
  have c1 := isFin_jcos (h2 _ hx); have c2 := isFin_jcos (h2 _ hy)
  have c3 := isFin_jcos (h2 _ hz); have s1 := isFin_jsin (h2 _ hx)
  have s2 := isFin_jsin (h2 _ hy); have s3 := isFin_jsin (h2 _ hz)
  exact ⟨isFin_jadd (isFin_jmul (isFin_jmul s1 c2) c3) (isFin_jmul (isFin_jmul c1 s2) s3),
         isFin_jsub (isFin_jmul (isFin_jmul c1 s2) c3) (isFin_jmul (isFin_jmul s1 c2) s3),
         isFin_jsub (isFin_jmul (isFin_jmul c1 c2) s3) (isFin_jmul (isFin_jmul s1 s2) c3),
         isFin_jadd (isFin_jmul (isFin_jmul c1 c2) c3) (isFin_jmul (isFin_jmul s1 s2) s3)⟩

theorem isFin_applyQuaternion {v : Vec3} {q : Quat} (hv : v.IsFin) (hq : q.IsFin) :
    (applyQuaternion v q).IsFin := by
  obtain ⟨hvx, hvy, hvz⟩ := hv
  obtain ⟨hqx, hqy, hqz, hqw⟩ := hq
  have htx : (jmul (.fin 2) (jsub (jmul q.qy v.z) (jmul q.qz v.y))).IsFin :=
    isFin_jmul ⟨2, rfl⟩ (isFin_jsub (isFin_jmul hqy hvz) (isFin_jmul hqz hvy))
  have hty : (jmul (.fin 2) (jsub (jmul q.qz v.x) (jmul q.qx v.z))).IsFin :=
    isFin_jmul ⟨2, rfl⟩ (isFin_jsub (isFin_jmul hqz hvx) (isFin_jmul hqx hvz))
  have htz : (jmul (.fin 2) (jsub (jmul q.qx v.y) (jmul q.qy v.x))).IsFin :=
    isFin_jmul ⟨2, rfl⟩ (isFin_jsub (isFin_jmul hqx hvy) (isFin_jmul hqy hvx))
  exact ⟨isFin_jsub (isFin_jadd (isFin_jadd hvx (isFin_jmul hqw htx)) (isFin_jmul hqy htz))
           (isFin_jmul hqz hty),
         isFin_jsub (isFin_jadd (isFin_jadd hvy (isFin_jmul hqw hty)) (isFin_jmul hqz htx))
           (isFin_jmul hqx htz),
         isFin_jsub (isFin_jadd (isFin_jadd hvz (isFin_jmul hqw htz)) (isFin_jmul hqx hty))
           (isFin_jmul hqy htx)⟩

theorem isFin_moveDirection (k : Keys) {delta yaw : JF}
    (hd : delta.IsFin) (hw : yaw.IsFin) : (moveDirection k delta yaw).IsFin := by
  refine isFin_applyQuaternion ?_ (isFin_quatFromEulerYXZ ⟨0, rfl⟩ hw ⟨0, rfl⟩)
  exact isFin_vmulScalar
    (isFin_vnormalize (isFin_vsub (isFin_frontVec k) (isFin_sideVec k)))
    (isFin_jmul ⟨MOVE_SPEED, rfl⟩ hd)

theorem movementUpdate_not_locked (k : Keys) (delta yaw : JF) (pos : Vec3) :
    movementUpdate false k delta yaw pos = pos := by
  simp [movementUpdate]

theorem movementUpdate_locked_val (k : Keys) {delta yaw : JF} (pos : Vec3)
    {dx dz px pz : ℝ}
    (hdx : (moveDirection k delta yaw).x = .fin dx)
    (hdz : (moveDirection k delta yaw).z = .fin dz)
    (hpx : pos.x = .fin px) (hpz : pos.z = .fin pz) :
    movementUpdate true k delta yaw pos =
      ⟨.fin (max MOVEMENT_BOUNDS.minX (min MOVEMENT_BOUNDS.maxX (px + dx))),
       .fin MOVEMENT_BOUNDS.lockedY,
       .fin (max MOVEMENT_BOUNDS.minZ (min MOVEMENT_BOUNDS.maxZ (pz + dz)))⟩ := by
  simp only [movementUpdate, if_true, hdx, hdz, hpx, hpz, jadd_fin, jmin_fin, jmax_fin]

theorem movementUpdate_locked_inCage (k : Keys) {delta yaw : JF} (pos : Vec3)
    (hd : delta.IsFin) (hw : yaw.IsFin) (hx : pos.x.IsFin) (hz : pos.z.IsFin) :
    inCage (movementUpdate true k delta yaw pos) := by
  obtain ⟨⟨dx, hdx⟩, -, ⟨dz, hdz⟩⟩ := isFin_moveDirection k hd hw
  obtain ⟨px, hpx⟩ := hx
  obtain ⟨pz, hpz⟩ := hz
  rw [movementUpdate_locked_val k pos hdx hdz hpx hpz]
  have hXle : MOVEMENT_BOUNDS.minX ≤ MOVEMENT_BOUNDS.maxX := by norm_num [MOVEMENT_BOUNDS]
  have hZle : MOVEMENT_BOUNDS.minZ ≤ MOVEMENT_BOUNDS.maxZ := by norm_num [MOVEMENT_BOUNDS]
  exact ⟨⟨_, rfl, le_max_left _ _, max_le hXle (min_le_left _ _)⟩,
         rfl,
         ⟨_, rfl, le_max_left _ _, max_le hZle (min_le_left _ _)⟩⟩

theorem runFrames_inCage (fs : List FrameInput) (pos : Vec3)
    (hpos : inCage pos) (hfs : ∀ f ∈ fs, f.delta.IsFin ∧ f.yaw.IsFin) :
    inCage (runFrames pos fs) := by
  induction fs generalizing pos with
  | nil => exact hpos
  | cons f fs ih =>
    have hf := hfs f (List.mem_cons_self f fs)
    have hstep : inCage (movementUpdate f.locked f.keys f.delta f.yaw pos) := by
      cases hL : f.locked with
      | false => rw [movementUpdate_not_locked]; exact hpos
      | true =>
        obtain ⟨a, ha, -, -⟩ := hpos.1
        obtain ⟨c, hc, -, -⟩ := hpos.2.2
        exact movementUpdate_locked_inCage f.keys pos hf.1 hf.2 ⟨a, ha⟩ ⟨c, hc⟩
    have : runFrames pos (f :: fs) =
        runFrames (movementUpdate f.locked f.keys f.delta f.yaw pos) fs := rfl
    rw [this]
    exact ih _ hstep (fun g hg => hfs g (List.mem_cons_of_mem f hg))

theorem initial_inCage : inCage initialCameraPosition := by
  refine ⟨⟨0, rfl, ?_, ?_⟩, rfl, ⟨1.5, rfl, ?_, ?_⟩⟩ <;> norm_num [MOVEMENT_BOUNDS]

/-- Claim C2: over any sequence of per-frame movement updates with arbitrary
held-key combinations, finite frame deltas and finite camera yaws, the camera
position starting from the mount position stays inside the cage after every
frame: x in [-2, 2], z in [-1, 2] and y locked to 0; and the update is the
identity (applies nothing) when pointer lock is not engaged. -/
theorem c2_camera_cage_invariant :
    (∀ fs : List FrameInput,
        (∀ f ∈ fs, f.delta.IsFin ∧ f.yaw.IsFin) →
        inCage (runFrames initialCameraPosition fs)) ∧
    (∀ (k : Keys) (delta yaw : JF) (pos : Vec3),
        movementUpdate false k delta yaw pos = pos) := by
  constructor
  · intro fs hfs
    exact runFrames_inCage fs initialCameraPosition initial_inCage hfs
  · exact movementUpdate_not_locked

/-- Witness for C2 at a concrete two-frame input (forward key held, 60 fps
delta, then a quarter-turn yaw with the side key). -/
theorem c2_camera_cage_invariant_witness :
    inCage (runFrames initialCameraPosition
      [⟨true, ⟨true, false, false, false⟩, .fin (1 / 60), .fin 0⟩,
       ⟨true, ⟨false, false, true, false⟩, .fin (1 / 30), .fin 1⟩]) := by
  refine c2_camera_cage_invariant.1 _ ?_
  intro f hf
  simp only [List.mem_cons, List.not_mem_nil, or_false] at hf
  rcases hf with hf | hf <;> subst hf <;> exact ⟨⟨_, rfl⟩, ⟨_, rfl⟩⟩

/-- Claim C8 counterexample: the movement update has no finiteness guard: a
single locked frame whose delta is NaN writes a NaN x coordinate back into
the camera position (JavaScript `Math.max/min` propagate NaN through the
clamp), so a non-finite camera position IS written back. -/
theorem c8_nonfinite_guard_counterexample :
    (movementUpdate true ⟨false, false, false, false⟩ .nan (.fin 0)
        initialCameraPosition).x = .nan ∧
    (movementUpdate true ⟨false, false, false, false⟩ .nan (.fin 0)
        initialCameraPosition).x.isFinite = false := by
  have hx : (movementUpdate true ⟨false, false, false, false⟩ .nan (.fin 0)
      initialCameraPosition).x = .nan := by
    simp [movementUpdate, moveDirection, applyEulerY, applyQuaternion, vmulScalar]
  exact ⟨hx, by rw [hx]; rfl⟩

/-- Claim C8, amended: the code performs no non-finite guard (see the
counterexample); what does hold is that whenever the incoming position,
the frame delta and the camera yaw are all finite, the position written back
is finite on every axis (and the update is the identity when unlocked). -/
theorem c8_finite_update_amended (locked : Bool) (k : Keys) (delta yaw : JF)
    (pos : Vec3) (hx : pos.x.IsFin) (hy : pos.y.IsFin) (hz : pos.z.IsFin)
    (hd : delta.IsFin) (hw : yaw.IsFin) :
    (movementUpdate locked k delta yaw pos).x.IsFin ∧
    (movementUpdate locked k delta yaw pos).y.IsFin ∧
    (movementUpdate locked k delta yaw pos).z.IsFin := by
  cases locked with
  | false => rw [movementUpdate_not_locked]; exact ⟨hx, hy, hz⟩
  | true =>
    obtain ⟨⟨dx, hdx⟩, -, ⟨dz, hdz⟩⟩ := isFin_moveDirection k hd hw
    obtain ⟨px, hpx⟩ := hx
    obtain ⟨pz, hpz⟩ := hz
    rw [movementUpdate_locked_val k pos hdx hdz hpx hpz]
    exact ⟨⟨_, rfl⟩, ⟨_, rfl⟩, ⟨_, rfl⟩⟩

/-- Witness for the amended C8 at a concrete locked frame. -/
theorem c8_finite_update_amended_witness :
    (movementUpdate true ⟨true, false, false, false⟩ (.fin 1) (.fin 0)
        initialCameraPosition).x.IsFin ∧
    (movementUpdate true ⟨true, false, false, false⟩ (.fin 1) (.fin 0)
        initialCameraPosition).y.IsFin ∧
    (movementUpdate true ⟨true, false, false, false⟩ (.fin 1) (.fin 0)
        initialCameraPosition).z.IsFin :=
  c8_finite_update_amended true ⟨true, false, false, false⟩ (.fin 1) (.fin 0)
    initialCameraPosition ⟨0, rfl⟩ ⟨0, rfl⟩ ⟨1.5, rfl⟩ ⟨1, rfl⟩ ⟨0, rfl⟩

/-! ### Characterization of the header scan -/

/-- Prepend a byte to the first complete line (or to the fragment when no
complete line follows). -/
def consFirst (b : Nat) : List (List Nat) × List Nat → List (List Nat) × List Nat
  | ([], fr) => ([], b :: fr)
  | (l :: ls, fr) => ((b :: l) :: ls, fr)

/-- Split a byte list at newline bytes: the newline-terminated lines, and the
trailing fragment after the last newline. -/
def splitNl : List Nat → List (List Nat) × List Nat
  | [] => ([], [])
  | b :: rest =>
    if b = 10 then ([] :: (splitNl rest).1, (splitNl rest).2)
    else consFirst b (splitNl rest)

/-- Glue a partial current line onto the first complete line. -/
def prefixFirst (cur : List Nat) : List (List Nat) → List (List Nat)
  | [] => []
  | l :: ls => (cur ++ l) :: ls

/-- No newline-terminated line of the scanned prefix (the first 10 000 bytes)
trims to the `end_header` sentinel. -/
def NoHeaderEnd (buffer : List Nat) : Prop :=
  ∀ l ∈ (splitNl (buffer.take 10000)).1, trimDecode l ≠ strBytes "end_header"

theorem prefixFirst_consFirst (cur : List Nat) (b : Nat)
    (p : List (List Nat) × List Nat) :
    prefixFirst cur (consFirst b p).1 = prefixFirst (cur ++ [b]) p.1 := by
  obtain ⟨ls, fr⟩ := p
  cases ls with
  | nil => simp [consFirst, prefixFirst]
  | cons l ls => simp [consFirst, prefixFirst]

theorem prefixFirst_nil_id (ls : List (List Nat)) : prefixFirst [] ls = ls := by
  cases ls <;> simp [prefixFirst]

theorem headerScanAux_none_iff (rest : List Nat) (pos : Nat) (cur : List Nat)
    (acc : List (List Nat)) :
    headerScanAux rest pos cur acc = none ↔
      ∀ l ∈ prefixFirst cur (splitNl (rest.take (10000 - pos))).1,
        trimDecode l ≠ strBytes "end_header" := by
  induction rest generalizing pos cur acc with
  | nil => simp [headerScanAux, splitNl, prefixFirst]
  | cons b rest ih =>
    by_cases hpos : 10000 ≤ pos
    · have h0 : 10000 - pos = 0 := by omega
      simp [headerScanAux, hpos, h0, splitNl, prefixFirst]
    · have h1 : 10000 - pos = (10000 - (pos + 1)) + 1 := by omega
      rw [h1, List.take_succ_cons]
      by_cases hb : b = 10
      · subst hb
        have hsp : (splitNl (10 :: rest.take (10000 - (pos + 1)))).1
            = [] :: (splitNl (rest.take (10000 - (pos + 1)))).1 := by
          simp [splitNl]
        have hpf : prefixFirst cur ([] :: (splitNl (rest.take (10000 - (pos + 1)))).1)
            = cur :: (splitNl (rest.take (10000 - (pos + 1)))).1 := by
          simp [prefixFirst]
        rw [hsp, hpf]
        by_cases hline : trimDecode cur = strBytes "end_header"
        · have hsome : headerScanAux (10 :: rest) pos cur acc =
              some (acc ++ [trimDecode cur], pos + 1) := by
            simp [headerScanAux, hpos, hline]
          rw [hsome]
          constructor
          · intro h; exact absurd h (by simp)
          · intro hAll
            exact absurd hline (hAll cur (List.mem_cons_self _ _))
        · have hstep : headerScanAux (10 :: rest) pos cur acc =
              headerScanAux rest (pos + 1) [] (acc ++ [trimDecode cur]) := by
            simp [headerScanAux, hpos, hline]
          rw [hstep, ih, prefixFirst_nil_id]
          simp only [List.forall_mem_cons]
          exact ⟨fun h => ⟨hline, h⟩, fun h => h.2⟩
      · have hstep : headerScanAux (b :: rest) pos cur acc =
            headerScanAux rest (pos + 1) (cur ++ [b]) acc := by
          simp [headerScanAux, hpos, hb]
        rw [hstep, ih]
        have hsp : splitNl (b :: rest.take (10000 - (pos + 1))) =
            consFirst b (splitNl (rest.take (10000 - (pos + 1)))) := by
          simp [splitNl, hb]
        rw [hsp, prefixFirst_consFirst]

theorem headerScanAux_some_facts (rest : List Nat) (pos : Nat) (cur : List Nat)
    (acc : List (List Nat)) (lines : List (List Nat)) (he : Nat)
    (h : headerScanAux rest pos cur acc = some (lines, he)) :
    pos < he ∧ he ≤ pos + rest.length ∧ he ≤ 10000 ∧
    rest.getD (he - pos - 1) 0 = 10 ∧
    lines.getLast? = some (strBytes "end_header") ∧
    (∀ rest' : List Nat, rest'.take (he - pos) = rest.take (he - pos) →
        headerScanAux rest' pos cur acc = some (lines, he)) := by
  induction rest generalizing pos cur acc with
  | nil => simp [headerScanAux] at h
  | cons b rest ih =>
    by_cases hpos : 10000 ≤ pos
    · simp [headerScanAux, hpos] at h
    · by_cases hb : b = 10
      · subst hb
        by_cases hline : trimDecode cur = strBytes "end_header"
        · have h' : acc ++ [trimDecode cur] = lines ∧ pos + 1 = he := by
            simpa [headerScanAux, hpos, hline] using h
          obtain ⟨hlines, hhe⟩ := h'
          subst hhe
          refine ⟨Nat.lt_succ_self pos, by simp, by omega, ?_, ?_, ?_⟩
          · have : pos + 1 - pos - 1 = 0 := by omega
            rw [this]; rfl
          · rw [← hlines]; simp [hline]
          · intro rest' htake
            have h1 : pos + 1 - pos = 1 := by omega
            rw [h1] at htake
            cases rest' with
            | nil => simp at htake
            | cons b' t' =>
              have hb' : b' = 10 := by simpa using htake
              subst hb'
              simp [headerScanAux, hpos, hline]
              rw [← hline]
              exact hlines
        · have hstep : headerScanAux rest (pos + 1) [] (acc ++ [trimDecode cur])
              = some (lines, he) := by
            rw [← h]; simp [headerScanAux, hpos, hline]
          obtain ⟨ha, hbnd, h10k, hgd, hlast, hind⟩ :=
            ih (pos + 1) [] (acc ++ [trimDecode cur]) hstep
          refine ⟨by omega, by simp; omega, h10k, ?_, hlast, ?_⟩
          · have hidx : he - pos - 1 = (he - (pos + 1) - 1) + 1 := by omega
            rw [hidx, List.getD_cons_succ]
            have : he - (pos + 1) - 1 = he - (pos + 1) - 1 := rfl
            exact hgd
          · intro rest' htake
            have h2 : he - pos = (he - (pos + 1)) + 1 := by omega
            rw [h2, List.take_succ_cons] at htake
            cases rest' with
            | nil => simp at htake
            | cons b' t' =>
              rw [List.take_succ_cons] at htake
              have hb' : b' = 10 := (List.cons_eq_cons.mp htake).1
              have ht' : t'.take (he - (pos + 1)) = rest.take (he - (pos + 1)) :=
                (List.cons_eq_cons.mp htake).2
              subst hb'
              have := hind t' ht'
              simpa [headerScanAux, hpos, hline] using this
      · have hstep : headerScanAux rest (pos + 1) (cur ++ [b]) acc
            = some (lines, he) := by
          rw [← h]; simp [headerScanAux, hpos, hb]
        obtain ⟨ha, hbnd, h10k, hgd, hlast, hind⟩ :=
          ih (pos + 1) (cur ++ [b]) acc hstep
        refine ⟨by omega, by simp; omega, h10k, ?_, hlast, ?_⟩
        · have hidx : he - pos - 1 = (he - (pos + 1) - 1) + 1 := by omega
          rw [hidx, List.getD_cons_succ]
          exact hgd
        · intro rest' htake
          have h2 : he - pos = (he - (pos + 1)) + 1 := by omega
          rw [h2, List.take_succ_cons] at htake
          cases rest' with
          | nil => simp at htake
          | cons b' t' =>
            rw [List.take_succ_cons] at htake
            have hb' : b' = b := (List.cons_eq_cons.mp htake).1
            have ht' : t'.take (he - (pos + 1)) = rest.take (he - (pos + 1)) :=
              (List.cons_eq_cons.mp htake).2
            subst hb'
            have := hind t' ht'
            simpa [headerScanAux, hpos, hb] using this

/-- A buffer whose scanned prefix contains no `end_header` line. -/
def bufNoEnd : List Nat :=
  strBytes "ply\nformat binary_little_endian 1.0\nelement vertex 1\n"

/-- A tiny buffer with the sentinel at offset 14 (newline) and three payload
bytes after it. -/
def bufMini : List Nat := strBytes "ply\nend_header\n" ++ [0, 1, 2]

/-- Claim C6: if no newline-terminated line of the scanned prefix (the first
10 000 bytes) trims to `end_header`, the decoder returns the no-header-end
failure (the `null` of line 300) — never a crash, never a successful result.
When the sentinel is found, the recorded offset `headerEnd` points just past
the sentinel's terminating newline (a newline byte sits at `headerEnd - 1`,
inside the scanned prefix), the last collected header line is `end_header`,
the scan result depends only on the first `headerEnd` bytes (so the binary
payload is never scanned as header text), and the rest of the decode
consumes exactly the bytes from `headerEnd` on. -/
theorem c6_header_sentinel :
    (∀ buffer : List Nat, NoHeaderEnd buffer →
        parseGaussianSplatPly buffer = .failure) ∧
    (∀ (buffer : List Nat) (lines : List (List Nat)) (he : Nat),
        headerScan buffer = some (lines, he) →
        1 ≤ he ∧ he ≤ min buffer.length 10000 ∧
        buffer.getD (he - 1) 0 = 10 ∧
        lines.getLast? = some (strBytes "end_header") ∧
        (∀ buffer' : List Nat, buffer'.take he = buffer.take he →
            headerScan buffer' = some (lines, he)) ∧
        parseGaussianSplatPly buffer = parsePayload lines (buffer.drop he)) := by
  constructor
  · intro buffer hNo
    have hnone : headerScan buffer = none := by
      rw [headerScan, headerScanAux_none_iff, Nat.sub_zero, prefixFirst_nil_id]
      exact hNo
    simp [parseGaussianSplatPly, hnone]
  · intro buffer lines he h
    obtain ⟨h1, h2, h3, h4, h5, h6⟩ := headerScanAux_some_facts buffer 0 [] [] lines he h
    refine ⟨h1, by omega, by simpa using h4, h5, ?_, ?_⟩
    · intro buffer' htake
      exact h6 buffer' (by simpa using htake)
    · simp [parseGaussianSplatPly, h]

/-- Witness for C6: the first part at a concrete sentinel-free buffer, the
second at a concrete buffer whose sentinel newline is at offset 14. -/
theorem c6_header_sentinel_witness :
    parseGaussianSplatPly bufNoEnd = .failure ∧
    (1 ≤ 15 ∧ 15 ≤ min bufMini.length 10000 ∧
     bufMini.getD 14 0 = 10 ∧
     ([strBytes "ply", strBytes "end_header"].getLast? = some (strBytes "end_header")) ∧
     (∀ buffer' : List Nat, buffer'.take 15 = bufMini.take 15 →
         headerScan buffer' = some ([strBytes "ply", strBytes "end_header"], 15)) ∧
     parseGaussianSplatPly bufMini =
       parsePayload [strBytes "ply", strBytes "end_header"] (bufMini.drop 15)) :=
  ⟨c6_header_sentinel.1 bufNoEnd (by unfold NoHeaderEnd; decide),
   by
     have := c6_header_sentinel.2 bufMini [strBytes "ply", strBytes "end_header"] 15
       (by decide)
     simpa using this⟩

/-! ### Bounds facts: the record loop never reads out of range -/

theorem propIndexF_aux (l : List (Nat × PlyProp)) (nm : List Nat)
    (acc : Option Nat) (i : Nat)
    (h : l.foldl (fun a p => if p.2.name = some nm then some p.1 else a) acc
        = some i) :
    acc = some i ∨ ∃ p ∈ l, p.1 = i := by
  induction l generalizing acc with
  | nil => exact Or.inl h
  | cons q l ih =>
    rcases ih _ h with hacc | ⟨p, hp, hpi⟩
    · have hacc' : (if q.2.name = some nm then some q.1 else acc) = some i := hacc
      by_cases hc : q.2.name = some nm
      · rw [if_pos hc] at hacc'
        exact Or.inr ⟨q, List.mem_cons_self _ _, Option.some.inj hacc'⟩
      · rw [if_neg hc] at hacc'
        exact Or.inl hacc'
    · exact Or.inr ⟨p, List.mem_cons_of_mem _ hp, hpi⟩

/-- Every index produced by the `propIndex` lookup table is a valid column
index. -/
theorem propIndexF_lt (props : List PlyProp) (nm : List Nat) (i : Nat)
    (h : propIndexF props nm = some i) : i < props.length := by
  rcases propIndexF_aux props.enum nm none i h with hnone | ⟨p, hp, hpi⟩
  · exact absurd hnone (by simp)
  · have hg := List.mem_enum_iff_getElem?.mp hp
    have hlt : ¬ props.length ≤ p.1 := fun hle => by
      rw [List.getElem?_eq_none hle] at hg
      exact Option.noConfusion hg
    omega

theorem getFloat32_of_le (payload : List Nat) (off : Nat) (le : Bool)
    (h : off + 4 ≤ payload.length) :
    getFloat32 payload off le = some (f32val (bytesToBits payload off le)) := by
  simp [getFloat32, h]

theorem colorsRead_ne_none (payload : List Nat) (le : Bool)
    (lk : List Nat → Option Nat) (i bpv plen : Nat)
    (hbpv : bpv = plen * 4)
    (hguard : i * bpv + bpv ≤ payload.length)
    (hlk : ∀ nm j, lk nm = some j → j < plen) :
    colorsRead payload le lk (i * bpv) ≠ none := by
  have hread : ∀ idx, idx < plen → getFloat32 payload (i * bpv + idx * 4) le
      = some (f32val (bytesToBits payload (i * bpv + idx * 4) le)) := by
    intro idx hidx
    exact getFloat32_of_le _ _ _ (by omega)
  unfold colorsRead
  split
  · rename_i i0 i1 i2 h0 h1 h2
    rw [hread i0 (hlk _ _ h0), hread i1 (hlk _ _ h1), hread i2 (hlk _ _ h2)]
    simp
  · rename_i hfdc
    split
    · rename_i ir ig ib h0 h1 h2
      rw [hread ir (hlk _ _ h0), hread ig (hlk _ _ h1), hread ib (hlk _ _ h2)]
      simp
    · simp

theorem sizeRead_ne_none (payload : List Nat) (le : Bool)
    (lk : List Nat → Option Nat) (i bpv plen : Nat)
    (hbpv : bpv = plen * 4)
    (hguard : i * bpv + bpv ≤ payload.length)
    (hlk : ∀ nm j, lk nm = some j → j < plen) :
    sizeRead payload le lk (i * bpv) ≠ none := by
  have hread : ∀ idx, idx < plen → getFloat32 payload (i * bpv + idx * 4) le
      = some (f32val (bytesToBits payload (i * bpv + idx * 4) le)) := by
    intro idx hidx
    exact getFloat32_of_le _ _ _ (by omega)
  unfold sizeRead
  split
  · rename_i i0 i1 i2 h0 h1 h2
    rw [hread i0 (hlk _ _ h0), hread i1 (hlk _ _ h1), hread i2 (hlk _ _ h2)]
    simp
  · simp

theorem opacRead_ne_none (payload : List Nat) (le : Bool)
    (lk : List Nat → Option Nat) (i bpv plen : Nat)
    (hbpv : bpv = plen * 4)
    (hguard : i * bpv + bpv ≤ payload.length)
    (hlk : ∀ nm j, lk nm = some j → j < plen) :
    opacRead payload le lk (i * bpv) ≠ none := by
  have hread : ∀ idx, idx < plen → getFloat32 payload (i * bpv + idx * 4) le
      = some (f32val (bytesToBits payload (i * bpv + idx * 4) le)) := by
    intro idx hidx
    exact getFloat32_of_le _ _ _ (by omega)
  unfold opacRead
  split
  · rename_i oi h0
    rw [hread oi (hlk _ _ h0)]
    simp
  · simp

/-- Inside the bounds guard, the loop body never throws: every field read is
inside the record's byte span, which the guard places inside the payload. -/
theorem processRecord_ne_none (payload : List Nat) (le : Bool)
    (lk : List Nat → Option Nat) (xi yi zi bpv i plen : Nat)
    (hbpv : bpv = plen * 4)
    (hxi : xi < plen) (hyi : yi < plen) (hzi : zi < plen)
    (hguard : i * bpv + bpv ≤ payload.length)
    (hlk : ∀ nm j, lk nm = some j → j < plen) :
    processRecord payload le lk xi yi zi bpv i ≠ none := by
  have hread : ∀ idx, idx < plen → getFloat32 payload (i * bpv + idx * 4) le
      = some (f32val (bytesToBits payload (i * bpv + idx * 4) le)) := by
    intro idx hidx
    exact getFloat32_of_le _ _ _ (by omega)
  unfold processRecord
  simp only [hread xi hxi, hread yi hyi, hread zi hzi]
  by_cases hfin : (f32val (bytesToBits payload (i * bpv + xi * 4) le)).isFinite &&
      (f32val (bytesToBits payload (i * bpv + yi * 4) le)).isFinite &&
      (f32val (bytesToBits payload (i * bpv + zi * 4) le)).isFinite
  · rw [if_pos hfin]
    have hc := colorsRead_ne_none payload le lk i bpv plen hbpv hguard hlk
    have hs := sizeRead_ne_none payload le lk i bpv plen hbpv hguard hlk
    have ho := opacRead_ne_none payload le lk i bpv plen hbpv hguard hlk
    rcases hcv : colorsRead payload le lk (i * bpv) with - | ⟨cr, cg, cb⟩
    · exact absurd hcv hc
    rcases hsv : sizeRead payload le lk (i * bpv) with - | sz
    · exact absurd hsv hs
    rcases hov : opacRead payload le lk (i * bpv) with - | op
    · exact absurd hov ho
    simp [hcv, hsv, hov]
  · rw [if_neg hfin]
    simp

/-- Loop invariant: the record loop never throws, processes only records that
fit inside the payload, and pushes one triple/triple/size/opacity per valid
(finite-position) record.  `k` is the number of records pushed. -/
theorem decodeRecords_invariant (payload : List Nat) (le : Bool)
    (lk : List Nat → Option Nat) (xi yi zi bpv plen : Nat)
    (hbpv : bpv = plen * 4) (hplen : 0 < plen)
    (hxi : xi < plen) (hyi : yi < plen) (hzi : zi < plen)
    (hlk : ∀ nm j, lk nm = some j → j < plen) :
    ∀ (n i : Nat) (acc : SplatAcc),
      (decodeRecords payload le lk xi yi zi bpv n i acc).isSome = true ∧
      ∀ acc', decodeRecords payload le lk xi yi zi bpv n i acc = some acc' →
        ∃ k, acc'.validCount = acc.validCount + k ∧
          acc'.positions.length = acc.positions.length + 3 * k ∧
          acc'.colors.length = acc.colors.length + 3 * k ∧
          acc'.sizes.length = acc.sizes.length + k ∧
          acc'.opacities.length = acc.opacities.length + k ∧
          k ≤ n ∧ (k = 0 ∨ i + k ≤ payload.length / bpv) := by
  intro n
  induction n with
  | zero =>
    intro i acc
    refine ⟨rfl, ?_⟩
    intro acc' h
    refine ⟨0, ?_⟩
    have : acc = acc' := Option.some.inj h
    subst this
    simp
  | succ n ih =>
    intro i acc
    by_cases hg : payload.length < i * bpv + bpv
    · constructor
      · simp [decodeRecords, hg]
      · intro acc' h
        rw [decodeRecords, if_pos hg] at h
        have : acc = acc' := Option.some.inj h
        subst this
        exact ⟨0, by simp⟩
    · have hguard : i * bpv + bpv ≤ payload.length := by omega
      have hpr := processRecord_ne_none payload le lk xi yi zi bpv i plen hbpv
        hxi hyi hzi hguard hlk
      have hfit : i + 1 ≤ payload.length / bpv := by
        rw [Nat.le_div_iff_mul_le (by omega)]
        calc (i + 1) * bpv = i * bpv + bpv := by ring
        _ ≤ payload.length := hguard
      rcases hpv : processRecord payload le lk xi yi zi bpv i with - | opt
      · exact absurd hpv hpr
      · cases opt with
        | none =>
          have hstep : decodeRecords payload le lk xi yi zi bpv (n + 1) i acc
              = decodeRecords payload le lk xi yi zi bpv n (i + 1) acc := by
            rw [decodeRecords, if_neg hg, hpv]
          rw [hstep]
          obtain ⟨hsome, hinv⟩ := ih (i + 1) acc
          refine ⟨hsome, ?_⟩
          intro acc' h
          obtain ⟨k, h1, h2, h3, h4, h5, h6, h7⟩ := hinv acc' h
          exact ⟨k, h1, h2, h3, h4, h5, by omega, by omega⟩
        | some r =>
          have hstep : decodeRecords payload le lk xi yi zi bpv (n + 1) i acc
              = decodeRecords payload le lk xi yi zi bpv n (i + 1) (pushRec acc r) := by
            rw [decodeRecords, if_neg hg, hpv]
          rw [hstep]
          obtain ⟨hsome, hinv⟩ := ih (i + 1) (pushRec acc r)
          refine ⟨hsome, ?_⟩
          intro acc' h
          obtain ⟨k, h1, h2, h3, h4, h5, h6, h7⟩ := hinv acc' h
          refine ⟨k + 1, ?_, ?_, ?_, ?_, ?_, by omega, ?_⟩
          · rw [h1]; simp [pushRec]; omega
          · rw [h2]; simp [pushRec]; omega
          · rw [h3]; simp [pushRec]; omega
          · rw [h4]; simp [pushRec]; omega
          · rw [h5]; simp [pushRec]; omega
          · right
            rcases h7 with h7 | h7
            · omega
            · omega


/-- Case analysis of everything after the header checks: either some failure
path returned `null`, or the record loop ran to a result `acc` (it cannot
throw) and the outcome is `NoValidVertices`/success by `acc.validCount`. -/
theorem parseWithHeader_spec (h : HeaderInfo) (payload : List Nat) :
    parseWithHeader h payload = .failure ∨
    ∃ xi yi zi acc,
      propIndexF h.properties (strBytes "x") = some xi ∧
      propIndexF h.properties (strBytes "y") = some yi ∧
      propIndexF h.properties (strBytes "z") = some zi ∧
      0 < h.properties.length ∧
      decodeRecords payload h.isLittleEndian (propIndexF h.properties) xi yi zi
          (h.properties.length * 4) (loopCount h.vertexCount) 0 emptyAcc = some acc ∧
      parseWithHeader h payload =
        (if acc.validCount = 0 then ParseOutcome.failure else .success acc.toVAS) := by
  by_cases h0 : h.vertexCount = some 0 ∨ h.properties.length = 0
  · left
    unfold parseWithHeader
    rw [if_pos h0]
  · have hplen : 0 < h.properties.length := by
      rcases Nat.eq_zero_or_pos h.properties.length with hh | hh
      · exact absurd (Or.inr hh) h0
      · exact hh
    rcases hx : propIndexF h.properties (strBytes "x") with - | xi
    · left; unfold parseWithHeader; rw [if_neg h0, hx]
    rcases hy : propIndexF h.properties (strBytes "y") with - | yi
    · left; unfold parseWithHeader; rw [if_neg h0, hx, hy]
    rcases hz : propIndexF h.properties (strBytes "z") with - | zi
    · left; unfold parseWithHeader; rw [if_neg h0, hx, hy, hz]
    have hres : parseWithHeader h payload =
        match decodeRecords payload h.isLittleEndian (propIndexF h.properties)
            xi yi zi (h.properties.length * 4) (loopCount h.vertexCount) 0 emptyAcc with
        | none => ParseOutcome.crash
        | some acc => if acc.validCount = 0 then .failure else .success acc.toVAS := by
      unfold parseWithHeader
      rw [if_neg h0, hx, hy, hz]
    have hsome := (decodeRecords_invariant payload h.isLittleEndian
        (propIndexF h.properties) xi yi zi (h.properties.length * 4)
        h.properties.length rfl hplen
        (propIndexF_lt _ _ _ hx) (propIndexF_lt _ _ _ hy) (propIndexF_lt _ _ _ hz)
        (fun nm j hj => propIndexF_lt _ _ _ hj)
        (loopCount h.vertexCount) 0 emptyAcc).1
    obtain ⟨acc, hacc⟩ := Option.isSome_iff_exists.mp hsome
    have hres2 : parseWithHeader h payload =
        (if acc.validCount = 0 then ParseOutcome.failure else .success acc.toVAS) := by
      rw [hres, hacc]
    exact Or.inr ⟨xi, yi, zi, acc, rfl, rfl, rfl, hplen, hacc, hres2⟩

/-- Claim C4: the decoder never reads past the end of the buffer — the
modelled `RangeError` outcome `crash` is unreachable for every input buffer,
because the loop's guard `offset + bytesPerVertex > byteLength` breaks before
any record whose byte span exceeds the remaining payload — and on success the
number of output vertices is at most the number of whole records that fit in
the payload: `(length - headerEnd) / bytesPerVertex`.  A truncated trailing
record therefore contributes no output vertex. -/
theorem c4_truncated_payload_safe :
    (∀ buffer : List Nat, parseGaussianSplatPly buffer ≠ .crash) ∧
    (∀ (buffer : List Nat) (lines : List (List Nat)) (he : Nat)
        (vas : VertexAttributeSet),
        headerScan buffer = some (lines, he) →
        parseGaussianSplatPly buffer = .success vas →
        vas.sizes.length ≤
          (buffer.length - he) / ((interpretHeader lines).properties.length * 4)) := by
  constructor
  · intro buffer
    rcases hscan : headerScan buffer with - | ⟨lines, he⟩
    · simp [parseGaussianSplatPly, hscan]
    · have hparse : parseGaussianSplatPly buffer
          = parseWithHeader (interpretHeader lines) (buffer.drop he) := by
        simp [parseGaussianSplatPly, parsePayload, hscan]
      rw [hparse]
      rcases parseWithHeader_spec (interpretHeader lines) (buffer.drop he) with
        hfail | ⟨-, -, -, acc, -, -, -, -, -, hres⟩
      · simp [hfail]
      · rw [hres]
        by_cases hvc : acc.validCount = 0 <;> simp [hvc]
  · intro buffer lines he vas hscan hsuccess
    have hparse : parseGaussianSplatPly buffer
        = parseWithHeader (interpretHeader lines) (buffer.drop he) := by
      simp [parseGaussianSplatPly, parsePayload, hscan]
    rcases parseWithHeader_spec (interpretHeader lines) (buffer.drop he) with
      hfail | ⟨xi, yi, zi, acc, hx, hy, hz, hplen, hacc, hres⟩
    · rw [hparse, hfail] at hsuccess
      exact absurd hsuccess (by simp)
    rw [hparse, hres] at hsuccess
    by_cases hvc : acc.validCount = 0
    · rw [if_pos hvc] at hsuccess
      exact absurd hsuccess (by simp)
    rw [if_neg hvc] at hsuccess
    have hvas : vas = acc.toVAS := (ParseOutcome.success.inj hsuccess).symm
    obtain ⟨k, h1, h2, h3, h4, h5, h6, h7⟩ :=
      (decodeRecords_invariant (buffer.drop he)
        (interpretHeader lines).isLittleEndian
        (propIndexF (interpretHeader lines).properties) xi yi zi
        ((interpretHeader lines).properties.length * 4)
        (interpretHeader lines).properties.length rfl hplen
        (propIndexF_lt _ _ _ hx) (propIndexF_lt _ _ _ hy) (propIndexF_lt _ _ _ hz)
        (fun nm j hj => propIndexF_lt _ _ _ hj)
        (loopCount (interpretHeader lines).vertexCount) 0 emptyAcc).2 acc hacc
    have hk : acc.validCount = k := by simpa [emptyAcc] using h1
    have hlen : vas.sizes.length = k := by
      rw [hvas]
      simpa [SplatAcc.toVAS, emptyAcc] using h4
    rcases h7 with h7 | h7
    · omega
    · rw [hlen]
      rw [List.length_drop] at h7
      omega

/-- Claim C5: a declared record whose decoded x, y or z is non-finite is
skipped entirely — the loop body yields the skip result `some none`, which
pushes no entry onto any of the four output sequences — and consequently on
success the four sequences describe `n` vertices with
`n ≤ loopCount vertexCount` (the number of loop iterations the declared
vertex count allows, i.e. at most the declared count). -/
theorem c5_nonfinite_vertices_skipped :
    (∀ (payload : List Nat) (le : Bool) (lk : List Nat → Option Nat)
        (xi yi zi bpv i : Nat) (x y z : JF),
        getFloat32 payload (i * bpv + xi * 4) le = some x →
        getFloat32 payload (i * bpv + yi * 4) le = some y →
        getFloat32 payload (i * bpv + zi * 4) le = some z →
        ¬(x.isFinite && y.isFinite && z.isFinite) = true →
        processRecord payload le lk xi yi zi bpv i = some none) ∧
    (∀ (buffer : List Nat) (lines : List (List Nat)) (he : Nat)
        (vas : VertexAttributeSet),
        headerScan buffer = some (lines, he) →
        parseGaussianSplatPly buffer = .success vas →
        ∃ n, vas.positions.length = 3 * n ∧ vas.colors.length = 3 * n ∧
          vas.sizes.length = n ∧ vas.opacities.length = n ∧
          n ≤ loopCount (interpretHeader lines).vertexCount) := by
  constructor
  · intro payload le lk xi yi zi bpv i x y z hx hy hz hfin
    unfold processRecord
    simp only [hx, hy, hz]
    rw [if_neg hfin]
  · intro buffer lines he vas hscan hsuccess
    have hparse : parseGaussianSplatPly buffer
        = parseWithHeader (interpretHeader lines) (buffer.drop he) := by
      simp [parseGaussianSplatPly, parsePayload, hscan]
    rcases parseWithHeader_spec (interpretHeader lines) (buffer.drop he) with
      hfail | ⟨xi, yi, zi, acc, hx, hy, hz, hplen, hacc, hres⟩
    · rw [hparse, hfail] at hsuccess
      exact absurd hsuccess (by simp)
    rw [hparse, hres] at hsuccess
    by_cases hvc : acc.validCount = 0
    · rw [if_pos hvc] at hsuccess
      exact absurd hsuccess (by simp)
    rw [if_neg hvc] at hsuccess
    have hvas : vas = acc.toVAS := (ParseOutcome.success.inj hsuccess).symm
    obtain ⟨k, h1, h2, h3, h4, h5, h6, h7⟩ :=
      (decodeRecords_invariant (buffer.drop he)
        (interpretHeader lines).isLittleEndian
        (propIndexF (interpretHeader lines).properties) xi yi zi
        ((interpretHeader lines).properties.length * 4)
        (interpretHeader lines).properties.length rfl hplen
        (propIndexF_lt _ _ _ hx) (propIndexF_lt _ _ _ hy) (propIndexF_lt _ _ _ hz)
        (fun nm j hj => propIndexF_lt _ _ _ hj)
        (loopCount (interpretHeader lines).vertexCount) 0 emptyAcc).2 acc hacc
    refine ⟨k, ?_, ?_, ?_, ?_, h6⟩
    · rw [hvas]; simpa [SplatAcc.toVAS, emptyAcc] using h2
    · rw [hvas]; simpa [SplatAcc.toVAS, emptyAcc] using h3
    · rw [hvas]; simpa [SplatAcc.toVAS, emptyAcc] using h4
    · rw [hvas]; simpa [SplatAcc.toVAS, emptyAcc] using h5

/-! ### Range characterization of the decoded attributes -/

/-- A spherical-harmonic colour channel is NaN exactly when the DC term is
NaN; otherwise the clamp puts it in [0, 1]. -/
theorem shChan_char (f : JF) :
    shChan f = .nan ∨ ∃ v : ℝ, shChan f = .fin v ∧ 0 ≤ v ∧ v ≤ 1 := by
  have hC0 : (0 : ℝ) < C0 := by norm_num [C0]
  cases f with
  | nan => left; rfl
  | fin x =>
    right
    refine ⟨max 0 (min 1 (0.5 + C0 * x)), ?_, le_max_left _ _,
      max_le (by norm_num) (min_le_left _ _)⟩
    unfold shChan
    rw [jmul_fin, jadd_fin, jmin_fin, jmax_fin]
  | inf =>
    right
    have h1 : jmul (.fin C0) .inf = .inf := by simp [jmul, hC0]
    refine ⟨max 0 1, ?_, le_max_left _ _, max_le (by norm_num) (by norm_num)⟩
    unfold shChan
    rw [h1, show jadd (.fin 0.5) .inf = .inf from rfl,
      show jmin (.fin 1) .inf = .fin 1 from rfl, jmax_fin]
  | ninf =>
    right
    have h1 : jmul (.fin C0) .ninf = .ninf := by simp [jmul, hC0]
    refine ⟨0, ?_, le_refl 0, by norm_num⟩
    unfold shChan
    rw [h1, show jadd (.fin 0.5) .ninf = .ninf from rfl,
      show jmin (.fin 1) .ninf = .ninf from rfl,
      show jmax (.fin 0) .ninf = .fin 0 from rfl]

/-- A decoded opacity is NaN exactly when the raw logit is NaN; otherwise the
clamp puts it in [0.1, 1]. -/
theorem opacVal_char (raw : JF) :
    opacVal raw = .nan ∨ ∃ v : ℝ, opacVal raw = .fin v ∧ 0.1 ≤ v ∧ v ≤ 1 := by
  cases raw with
  | nan => left; rfl
  | fin r =>
    right
    have hpos : (0 : ℝ) < 1 + Real.exp (-r) := by positivity
    refine ⟨max 0.1 (min 1.0 (1 / (1 + Real.exp (-r)))), ?_, le_max_left _ _,
      max_le (by norm_num) (by
        refine le_trans (min_le_right _ _) ?_
        rw [div_le_one hpos]
        have := Real.exp_pos (-r)
        linarith)⟩
    unfold opacVal
    rw [jneg_fin, jexp_fin, jadd_fin,
      jdiv_fin_of_ne _ _ (ne_of_gt hpos), jmin_fin, jmax_fin]
  | inf =>
    right
    refine ⟨max 0.1 (min 1.0 (1 / (1 + 0))), ?_, le_max_left _ _,
      max_le (by norm_num) (by norm_num)⟩
    unfold opacVal
    rw [show jneg .inf = .ninf from rfl, show jexp .ninf = .fin 0 from rfl,
      jadd_fin, jdiv_fin_of_ne _ _ (by norm_num), jmin_fin, jmax_fin]
  | ninf =>
    right
    refine ⟨max 0.1 (min 1.0 0), ?_, le_max_left _ _,
      max_le (by norm_num) (by norm_num)⟩
    unfold opacVal
    rw [show jneg .ninf = .inf from rfl, show jexp .inf = .inf from rfl,
      show jadd (.fin 1) .inf = .inf from rfl,
      show jdiv (.fin 1) .inf = .fin 0 from rfl, jmin_fin, jmax_fin]

/-- Every opacity the loop pushes is either NaN (a NaN raw logit) or a finite
value in [0.1, 1]; the no-column default is 0.8. -/
theorem opacRead_char (payload : List Nat) (le : Bool)
    (lk : List Nat → Option Nat) (offset : Nat) (o : JF)
    (h : opacRead payload le lk offset = some o) :
    o = .nan ∨ ∃ v : ℝ, o = .fin v ∧ 0.1 ≤ v ∧ v ≤ 1 := by
  unfold opacRead at h
  split at h
  · split at h
    · rename_i raw hraw
      rw [← Option.some.inj h]
      exact opacVal_char raw
    · exact absurd h (by simp)
  · rw [← Option.some.inj h]
    right
    exact ⟨0.8, rfl, by norm_num, by norm_num⟩

/-- If the spherical-harmonic columns are present, or the literal colour
triple is incomplete, every colour channel the loop pushes is either NaN or a
finite value in [0, 1] (the unclamped literal-colour path is excluded by the
hypothesis). -/
theorem colorsRead_char (payload : List Nat) (le : Bool)
    (lk : List Nat → Option Nat) (offset : Nat) (c1 c2 c3 : JF)
    (hcond : (∃ i0 i1 i2, lk (strBytes "f_dc_0") = some i0 ∧
        lk (strBytes "f_dc_1") = some i1 ∧ lk (strBytes "f_dc_2") = some i2) ∨
      lk (strBytes "red") = none ∨ lk (strBytes "green") = none ∨
      lk (strBytes "blue") = none)
    (h : colorsRead payload le lk offset = some (c1, c2, c3)) :
    ∀ c ∈ [c1, c2, c3], c = .nan ∨ ∃ v : ℝ, c = .fin v ∧ 0 ≤ v ∧ v ≤ 1 := by
  unfold colorsRead at h
  split at h
  · split at h
    · rename_i f0 f1 f2 hr0 hr1 hr2
      have hinj := Option.some.inj h
      rw [Prod.mk.injEq, Prod.mk.injEq] at hinj
      obtain ⟨e1, e2, e3⟩ := hinj
      intro c hc
      simp only [List.mem_cons, List.not_mem_nil, or_false] at hc
      rcases hc with rfl | rfl | rfl
      · rw [← e1]; exact shChan_char f0
      · rw [← e2]; exact shChan_char f1
      · rw [← e3]; exact shChan_char f2
    · exact absurd h (by simp)
  · rename_i hfdcAll
    split at h
    · rename_i ir ig ib hr hg hb
      rcases hcond with ⟨i0, i1, i2, h0, h1, h2⟩ | hn | hn | hn
      · exact (hfdcAll i0 i1 i2 h0 h1 h2).elim
      · rw [hn] at hr; exact Option.noConfusion hr
      · rw [hn] at hg; exact Option.noConfusion hg
      · rw [hn] at hb; exact Option.noConfusion hb
    · have hinj := Option.some.inj h
      rw [Prod.mk.injEq, Prod.mk.injEq] at hinj
      obtain ⟨e1, e2, e3⟩ := hinj
      intro c hc
      simp only [List.mem_cons, List.not_mem_nil, or_false] at hc
      rcases hc with rfl | rfl | rfl
      · exact Or.inr ⟨0.7, e1.symm, by norm_num, by norm_num⟩
      · exact Or.inr ⟨0.7, e2.symm, by norm_num, by norm_num⟩
      · exact Or.inr ⟨0.7, e3.symm, by norm_num, by norm_num⟩

/-- A record the loop keeps carries exactly the colour triple and opacity its
attribute reads produced. -/
theorem processRecord_fields (payload : List Nat) (le : Bool)
    (lk : List Nat → Option Nat) (xi yi zi bpv i : Nat) (r : SplatRec)
    (h : processRecord payload le lk xi yi zi bpv i = some (some r)) :
    colorsRead payload le lk (i * bpv) = some (r.cr, r.cg, r.cb) ∧
    opacRead payload le lk (i * bpv) = some r.opac := by
  simp only [processRecord] at h
  split at h
  · split at h
    · split at h
      · rename_i hcol hsz hop
        have hrr := Option.some.inj (Option.some.inj h)
        subst hrr
        exact ⟨hcol, hop⟩
      · exact absurd h (by simp)
    · exact absurd (Option.some.inj h) (by simp)
  · exact absurd h (by simp)

/-- Per-element provenance through the record loop: every pushed opacity came
from `opacRead` at some record offset, and every pushed colour channel from a
`colorsRead` triple at some record offset. -/
theorem decodeRecords_mem (payload : List Nat) (le : Bool)
    (lk : List Nat → Option Nat) (xi yi zi bpv : Nat) :
    ∀ (n i : Nat) (acc acc' : SplatAcc),
      decodeRecords payload le lk xi yi zi bpv n i acc = some acc' →
      (∀ o ∈ acc'.opacities, o ∈ acc.opacities ∨
          ∃ j, opacRead payload le lk (j * bpv) = some o) ∧
      (∀ c ∈ acc'.colors, c ∈ acc.colors ∨
          ∃ j c1 c2 c3, colorsRead payload le lk (j * bpv) = some (c1, c2, c3) ∧
            (c = c1 ∨ c = c2 ∨ c = c3)) := by
  intro n
  induction n with
  | zero =>
    intro i acc acc' h
    have : acc = acc' := Option.some.inj h
    subst this
    exact ⟨fun o ho => Or.inl ho, fun c hc => Or.inl hc⟩
  | succ n ih =>
    intro i acc acc' h
    rw [decodeRecords] at h
    by_cases hg : payload.length < i * bpv + bpv
    · rw [if_pos hg] at h
      have : acc = acc' := Option.some.inj h
      subst this
      exact ⟨fun o ho => Or.inl ho, fun c hc => Or.inl hc⟩
    · rw [if_neg hg] at h
      rcases hpv : processRecord payload le lk xi yi zi bpv i with - | opt
      · rw [hpv] at h; exact absurd h (by simp)
      rw [hpv] at h
      cases opt with
      | none => exact ih (i + 1) acc acc' h
      | some r =>
        obtain ⟨hcol, hop⟩ := processRecord_fields payload le lk xi yi zi bpv i r hpv
        obtain ⟨ihop, ihcol⟩ := ih (i + 1) (pushRec acc r) acc' h
        constructor
        · intro o ho
          rcases ihop o ho with hmem | hfound
          · rcases (by simpa [pushRec] using hmem :
                o ∈ acc.opacities ∨ o = r.opac) with hl | hr
            · exact Or.inl hl
            · exact Or.inr ⟨i, hr ▸ hop⟩
          · exact Or.inr hfound
        · intro c hc
          rcases ihcol c hc with hmem | hfound
          · rcases (by simpa [pushRec] using hmem :
                c ∈ acc.colors ∨ c = r.cr ∨ c = r.cg ∨ c = r.cb) with hl | hr
            · exact Or.inl hl
            · exact Or.inr ⟨i, r.cr, r.cg, r.cb, hcol, hr⟩
          · exact Or.inr hfound

/-- On a successful decode, the record loop ran to an accumulator with a
non-zero valid count, and the returned attribute set is exactly that
accumulator's four arrays. -/
theorem parse_success_acc (buffer : List Nat) (lines : List (List Nat)) (he : Nat)
    (vas : VertexAttributeSet)
    (hscan : headerScan buffer = some (lines, he))
    (hsuccess : parseGaussianSplatPly buffer = .success vas) :
    ∃ xi yi zi acc,
      propIndexF (interpretHeader lines).properties (strBytes "x") = some xi ∧
      propIndexF (interpretHeader lines).properties (strBytes "y") = some yi ∧
      propIndexF (interpretHeader lines).properties (strBytes "z") = some zi ∧
      0 < (interpretHeader lines).properties.length ∧
      decodeRecords (buffer.drop he) (interpretHeader lines).isLittleEndian
          (propIndexF (interpretHeader lines).properties) xi yi zi
          ((interpretHeader lines).properties.length * 4)
          (loopCount (interpretHeader lines).vertexCount) 0 emptyAcc = some acc ∧
      acc.validCount ≠ 0 ∧ vas = acc.toVAS := by
  have hparse : parseGaussianSplatPly buffer
      = parseWithHeader (interpretHeader lines) (buffer.drop he) := by
    simp [parseGaussianSplatPly, parsePayload, hscan]
  rcases parseWithHeader_spec (interpretHeader lines) (buffer.drop he) with
    hfail | ⟨xi, yi, zi, acc, hx, hy, hz, hplen, hacc, hres⟩
  · rw [hparse, hfail] at hsuccess
    exact absurd hsuccess (by simp)
  rw [hparse, hres] at hsuccess
  by_cases hvc : acc.validCount = 0
  · rw [if_pos hvc] at hsuccess
    exact absurd hsuccess (by simp)
  rw [if_neg hvc] at hsuccess
  exact ⟨xi, yi, zi, acc, hx, hy, hz, hplen, hacc, hvc,
    (ParseOutcome.success.inj hsuccess).symm⟩

/-- The colour-path condition under which the decoder clamps: the
spherical-harmonic columns are all present (they take priority), or the
literal red/green/blue triple is incomplete (so the gray default is used).
The excluded case is the literal-colour path, which does not clamp. -/
def shOrDefaultColorPath (lk : List Nat → Option Nat) : Prop :=
  (∃ i0 i1 i2, lk (strBytes "f_dc_0") = some i0 ∧
      lk (strBytes "f_dc_1") = some i1 ∧ lk (strBytes "f_dc_2") = some i2) ∨
  lk (strBytes "red") = none ∨ lk (strBytes "green") = none ∨
  lk (strBytes "blue") = none

/-- Claim C1, amended: on every successful decode the four output sequences
describe the same non-zero number of vertices.  Every emitted opacity is NaN
(possible only from a NaN raw logit) or a finite value in [0, 1]; and when
the colour path is the spherical-harmonic or default one, every emitted
colour channel is NaN (possible only from a NaN DC term) or a finite value
in [0, 1].  The literal red/green/blue path is NOT clamped — it only divides
by 255 when the raw value exceeds 1 — so its channels can lie outside [0, 1]
(see the counterexample), which is what forces the colour-path restriction
and the NaN escape hatch relative to the original claim. -/
theorem c1_decode_output_amended (buffer : List Nat) (lines : List (List Nat))
    (he : Nat) (vas : VertexAttributeSet)
    (hscan : headerScan buffer = some (lines, he))
    (hsuccess : parseGaussianSplatPly buffer = .success vas) :
    (∃ n, vas.positions.length = 3 * n ∧ vas.colors.length = 3 * n ∧
      vas.sizes.length = n ∧ vas.opacities.length = n ∧ 0 < n) ∧
    (∀ o ∈ vas.opacities, o = .nan ∨ ∃ v : ℝ, o = .fin v ∧ 0 ≤ v ∧ v ≤ 1) ∧
    (shOrDefaultColorPath (propIndexF (interpretHeader lines).properties) →
      ∀ c ∈ vas.colors, c = .nan ∨ ∃ v : ℝ, c = .fin v ∧ 0 ≤ v ∧ v ≤ 1) := by
  obtain ⟨xi, yi, zi, acc, hx, hy, hz, hplen, hacc, hvc, hvas⟩ :=
    parse_success_acc buffer lines he vas hscan hsuccess
  obtain ⟨k, h1, h2, h3, h4, h5, h6, h7⟩ :=
    (decodeRecords_invariant (buffer.drop he)
      (interpretHeader lines).isLittleEndian
      (propIndexF (interpretHeader lines).properties) xi yi zi
      ((interpretHeader lines).properties.length * 4)
      (interpretHeader lines).properties.length rfl hplen
      (propIndexF_lt _ _ _ hx) (propIndexF_lt _ _ _ hy) (propIndexF_lt _ _ _ hz)
      (fun nm j hj => propIndexF_lt _ _ _ hj)
      (loopCount (interpretHeader lines).vertexCount) 0 emptyAcc).2 acc hacc
  obtain ⟨hmemOp, hmemCol⟩ := decodeRecords_mem (buffer.drop he)
    (interpretHeader lines).isLittleEndian
    (propIndexF (interpretHeader lines).properties) xi yi zi
    ((interpretHeader lines).properties.length * 4)
    (loopCount (interpretHeader lines).vertexCount) 0 emptyAcc acc hacc
  refine ⟨⟨k, ?_, ?_, ?_, ?_, ?_⟩, ?_, ?_⟩
  · rw [hvas]; simpa [SplatAcc.toVAS, emptyAcc] using h2
  · rw [hvas]; simpa [SplatAcc.toVAS, emptyAcc] using h3
  · rw [hvas]; simpa [SplatAcc.toVAS, emptyAcc] using h4
  · rw [hvas]; simpa [SplatAcc.toVAS, emptyAcc] using h5
  · have : acc.validCount = k := by simpa [emptyAcc] using h1
    omega
  · intro o ho
    rw [hvas] at ho
    rcases hmemOp o (by simpa [SplatAcc.toVAS] using ho) with hempty | ⟨j, hj⟩
    · exact absurd hempty (by simp [emptyAcc])
    · rcases opacRead_char _ _ _ _ _ hj with hnan | ⟨v, hv, hlo, hhi⟩
      · exact Or.inl hnan
      · exact Or.inr ⟨v, hv, by linarith, hhi⟩
  · intro hcond c hc
    rw [hvas] at hc
    rcases hmemCol c (by simpa [SplatAcc.toVAS] using hc) with hempty | ⟨j, c1, c2, c3, hj, hcmem⟩
    · exact absurd hempty (by simp [emptyAcc])
    · exact colorsRead_char _ _ _ _ _ _ _ hcond hj c
        (by rcases hcmem with rfl | rfl | rfl <;> simp)

/-- Claim C10, amended: every emitted opacity is either a finite value in the
narrower interval [0.1, 1.0] — logit opacities are clamped to at least 0.1
and the no-column default is 0.8 — or NaN, which the clamp propagates when
the raw opacity field decodes to NaN (see the counterexample); the NaN escape
hatch is what the counterexample forces relative to the original claim. -/
theorem c10_opacity_floor_amended (buffer : List Nat) (lines : List (List Nat))
    (he : Nat) (vas : VertexAttributeSet)
    (hscan : headerScan buffer = some (lines, he))
    (hsuccess : parseGaussianSplatPly buffer = .success vas) :
    ∀ o ∈ vas.opacities, o = .nan ∨ ∃ v : ℝ, o = .fin v ∧ 0.1 ≤ v ∧ v ≤ 1 := by
  obtain ⟨xi, yi, zi, acc, hx, hy, hz, hplen, hacc, hvc, hvas⟩ :=
    parse_success_acc buffer lines he vas hscan hsuccess
  obtain ⟨hmemOp, -⟩ := decodeRecords_mem (buffer.drop he)
    (interpretHeader lines).isLittleEndian
    (propIndexF (interpretHeader lines).properties) xi yi zi
    ((interpretHeader lines).properties.length * 4)
    (loopCount (interpretHeader lines).vertexCount) 0 emptyAcc acc hacc
  intro o ho
  rw [hvas] at ho
  rcases hmemOp o (by simpa [SplatAcc.toVAS] using ho) with hempty | ⟨j, hj⟩
  · exact absurd hempty (by simp [emptyAcc])
  · exact opacRead_char _ _ _ _ _ hj

/-! ### Concrete evaluation helpers for the record loop -/

theorem getF32_at (payload : List Nat) (off bits : Nat) (v : JF)
    (hlen : off + 4 ≤ payload.length)
    (hbits : bytesToBits payload off true = bits)
    (hval : f32val bits = v) : getFloat32 payload off true = some v := by
  rw [getFloat32_of_le _ _ _ hlen, hbits, hval]

theorem f32val_fin_eval (bits : Nat) (q : ℚ) (x : ℝ)
    (hex : bits / 2 ^ 23 % 2 ^ 8 ≠ 255)
    (hq : f32rat bits = q) (hx : (q : ℝ) = x) : f32val bits = .fin x := by
  simp only [f32val, if_neg hex, hq, hx]

theorem f32v0 : f32val 0 = .fin 0 :=
  f32val_fin_eval 0 0 0 (by norm_num) (by norm_num [f32rat]) (by norm_num)

theorem f32v1 : f32val 1065353216 = .fin 1 :=
  f32val_fin_eval _ 1 1 (by norm_num) (by norm_num [f32rat]) (by norm_num)

theorem f32v2 : f32val 1073741824 = .fin 2 :=
  f32val_fin_eval _ 2 2 (by norm_num) (by norm_num [f32rat]) (by norm_num)

theorem f32v3 : f32val 1077936128 = .fin 3 :=
  f32val_fin_eval _ 3 3 (by norm_num) (by norm_num [f32rat]) (by norm_num)

theorem f32v4 : f32val 1082130432 = .fin 4 :=
  f32val_fin_eval _ 4 4 (by norm_num) (by norm_num [f32rat]) (by norm_num)

theorem f32v5 : f32val 1084227584 = .fin 5 :=
  f32val_fin_eval _ 5 5 (by norm_num) (by norm_num [f32rat]) (by norm_num)

theorem f32v6 : f32val 1086324736 = .fin 6 :=
  f32val_fin_eval _ 6 6 (by norm_num) (by norm_num [f32rat]) (by norm_num)

theorem f32vm1 : f32val 3212836864 = .fin (-1) :=
  f32val_fin_eval _ (-1) (-1) (by norm_num) (by norm_num [f32rat]) (by norm_num)

/-- The quiet-NaN pattern 0x7FC00000. -/
theorem f32vnan : f32val 2143289344 = .nan := by
  norm_num [f32val]

theorem processRecord_eval (payload : List Nat) (le : Bool)
    (lk : List Nat → Option Nat) (xi yi zi bpv i : Nat) (x y z c1 c2 c3 sz op : JF)
    (hx : getFloat32 payload (i * bpv + xi * 4) le = some x)
    (hy : getFloat32 payload (i * bpv + yi * 4) le = some y)
    (hz : getFloat32 payload (i * bpv + zi * 4) le = some z)
    (hfin : (x.isFinite && y.isFinite && z.isFinite) = true)
    (hcol : colorsRead payload le lk (i * bpv) = some (c1, c2, c3))
    (hsz : sizeRead payload le lk (i * bpv) = some sz)
    (hop : opacRead payload le lk (i * bpv) = some op) :
    processRecord payload le lk xi yi zi bpv i
      = some (some ⟨x, y, z, c1, c2, c3, sz, op⟩) := by
  simp only [processRecord, hx, hy, hz, hfin, if_true, hcol, hsz, hop]

theorem colorsRead_sh_eval (payload : List Nat) (le : Bool)
    (lk : List Nat → Option Nat) (offset i0 i1 i2 : Nat) (f0 f1 f2 : JF)
    (h0 : lk (strBytes "f_dc_0") = some i0)
    (h1 : lk (strBytes "f_dc_1") = some i1)
    (h2 : lk (strBytes "f_dc_2") = some i2)
    (hr0 : getFloat32 payload (offset + i0 * 4) le = some f0)
    (hr1 : getFloat32 payload (offset + i1 * 4) le = some f1)
    (hr2 : getFloat32 payload (offset + i2 * 4) le = some f2) :
    colorsRead payload le lk offset = some (shChan f0, shChan f1, shChan f2) := by
  simp only [colorsRead, h0, h1, h2, hr0, hr1, hr2]

theorem colorsRead_rgb_eval (payload : List Nat) (le : Bool)
    (lk : List Nat → Option Nat) (offset ir ig ib : Nat) (r g b : JF)
    (h0 : lk (strBytes "f_dc_0") = none)
    (hr : lk (strBytes "red") = some ir)
    (hg : lk (strBytes "green") = some ig)
    (hb : lk (strBytes "blue") = some ib)
    (hrr : getFloat32 payload (offset + ir * 4) le = some r)
    (hrg : getFloat32 payload (offset + ig * 4) le = some g)
    (hrb : getFloat32 payload (offset + ib * 4) le = some b) :
    colorsRead payload le lk offset = some (rgbChan r, rgbChan g, rgbChan b) := by
  simp only [colorsRead, h0, hr, hg, hb, hrr, hrg, hrb]

theorem sizeRead_default_eval (payload : List Nat) (le : Bool)
    (lk : List Nat → Option Nat) (offset : Nat)
    (h0 : lk (strBytes "scale_0") = none) :
    sizeRead payload le lk offset = some (.fin 0.01) := by
  simp only [sizeRead, h0]

theorem opacRead_eval (payload : List Nat) (le : Bool)
    (lk : List Nat → Option Nat) (offset oi : Nat) (raw : JF)
    (hoi : lk (strBytes "opacity") = some oi)
    (hr : getFloat32 payload (offset + oi * 4) le = some raw) :
    opacRead payload le lk offset = some (opacVal raw) := by
  simp only [opacRead, hoi, hr]

theorem opacRead_default_eval (payload : List Nat) (le : Bool)
    (lk : List Nat → Option Nat) (offset : Nat)
    (h : lk (strBytes "opacity") = none) :
    opacRead payload le lk offset = some (.fin 0.8) := by
  simp only [opacRead, h]

theorem decodeRecords_push (payload : List Nat) (le : Bool)
    (lk : List Nat → Option Nat) (xi yi zi bpv n i : Nat) (acc : SplatAcc)
    (r : SplatRec)
    (hg : ¬ payload.length < i * bpv + bpv)
    (hpr : processRecord payload le lk xi yi zi bpv i = some (some r)) :
    decodeRecords payload le lk xi yi zi bpv (n + 1) i acc
      = decodeRecords payload le lk xi yi zi bpv n (i + 1) (pushRec acc r) := by
  rw [decodeRecords, if_neg hg, hpr]

theorem decodeRecords_zero (payload : List Nat) (le : Bool)
    (lk : List Nat → Option Nat) (xi yi zi bpv i : Nat) (acc : SplatAcc) :
    decodeRecords payload le lk xi yi zi bpv 0 i acc = some acc := rfl

/-! ### Concrete values of the attribute transforms -/

theorem shChan_fin (x : ℝ) :
    shChan (.fin x) = .fin (max 0 (min 1 (0.5 + C0 * x))) := by
  unfold shChan
  rw [jmul_fin, jadd_fin, jmin_fin, jmax_fin]

theorem shChan_fin0 : shChan (.fin 0) = .fin (1 / 2) := by
  rw [shChan_fin]
  norm_num

theorem shChan_fin2 : shChan (.fin 2) = .fin 1 := by
  rw [shChan_fin, min_eq_left (by norm_num [C0]), max_eq_right (by norm_num)]

theorem shChan_finm4 : shChan (.fin (-4)) = .fin 0 := by
  rw [shChan_fin, min_eq_right (by norm_num [C0]), max_eq_left (by norm_num [C0])]

theorem shChan_fin1 : shChan (.fin 1) = .fin 0.78209479177387814 := by
  rw [shChan_fin, min_eq_right (by norm_num [C0]), max_eq_right (by norm_num [C0])]
  norm_num [C0]

theorem shChan_nan : shChan .nan = .nan := rfl

theorem opacVal_fin0 : opacVal (.fin 0) = .fin (1 / 2) := by
  unfold opacVal
  rw [jneg_fin, neg_zero, jexp_fin, Real.exp_zero, jadd_fin,
    jdiv_fin_of_ne _ _ (by norm_num), jmin_fin, jmax_fin]
  norm_num

theorem opacVal_nan : opacVal .nan = .nan := rfl

theorem rgbChan_finm1 : rgbChan (.fin (-1)) = .fin (-1) := by
  unfold rgbChan
  rw [if_neg]
  rintro (⟨x, hx, h1⟩ | hinf)
  · have : x = -1 := (JF.fin.inj hx).symm
    rw [this] at h1
    norm_num at h1
  · exact JF.noConfusion hinf

theorem rgbChan_fin0 : rgbChan (.fin 0) = .fin 0 := by
  unfold rgbChan
  rw [if_neg]
  rintro (⟨x, hx, h1⟩ | hinf)
  · have : x = 0 := (JF.fin.inj hx).symm
    rw [this] at h1
    norm_num at h1
  · exact JF.noConfusion hinf

theorem f32vm4 : f32val 3229614080 = .fin (-4) :=
  f32val_fin_eval _ (-4) (-4) (by norm_num) (by norm_num [f32rat]) (by norm_num)

/-! ### The synthetic round-trip buffer of claim C3 -/

/-- Header of the synthetic scene file: little-endian, `element vertex 2`,
properties `x y z f_dc_0 f_dc_1 f_dc_2 opacity`. -/
def rtHeaderStr : String := "ply\nformat binary_little_endian 1.0\nelement vertex 2\nproperty float x\nproperty float y\nproperty float z\nproperty float f_dc_0\nproperty float f_dc_1\nproperty float f_dc_2\nproperty float opacity\nend_header\n"

/-- Two 28-byte little-endian records: `(1,2,3, 0,0,0, 0)` and
`(4,5,6, 2,-4,1, 0)`. -/
def rtPayload : List Nat :=
  [0, 0, 128, 63, 0, 0, 0, 64, 0, 0, 64, 64, 0, 0, 0, 0, 0, 0, 0, 0,
   0, 0, 0, 0, 0, 0, 0, 0,
   0, 0, 128, 64, 0, 0, 160, 64, 0, 0, 192, 64, 0, 0, 0, 64,
   0, 0, 128, 192, 0, 0, 128, 63, 0, 0, 0, 0]

def bufRT : List Nat := strBytes rtHeaderStr ++ rtPayload

def rtLines : List (List Nat) :=
  [strBytes "ply", strBytes "format binary_little_endian 1.0",
   strBytes "element vertex 2", strBytes "property float x",
   strBytes "property float y", strBytes "property float z",
   strBytes "property float f_dc_0", strBytes "property float f_dc_1",
   strBytes "property float f_dc_2", strBytes "property float opacity",
   strBytes "end_header"]

def rtProps : List PlyProp :=
  [⟨some (strBytes "x"), strBytes "float"⟩, ⟨some (strBytes "y"), strBytes "float"⟩,
   ⟨some (strBytes "z"), strBytes "float"⟩,
   ⟨some (strBytes "f_dc_0"), strBytes "float"⟩,
   ⟨some (strBytes "f_dc_1"), strBytes "float"⟩,
   ⟨some (strBytes "f_dc_2"), strBytes "float"⟩,
   ⟨some (strBytes "opacity"), strBytes "float"⟩]

def rtHI : HeaderInfo := ⟨some 2, true, true, rtProps⟩

/-- Expected decode of `bufRT`: positions `1..6`, colours
`clamp(0,1, 0.5 + C0·f_dc)` per channel, default sizes, logistic opacities. -/
noncomputable def rtVAS : VertexAttributeSet :=
  ⟨[.fin 1, .fin 2, .fin 3, .fin 4, .fin 5, .fin 6],
   [.fin (1 / 2), .fin (1 / 2), .fin (1 / 2),
    .fin 1, .fin 0, .fin 0.78209479177387814],
   [.fin 0.01, .fin 0.01],
   [.fin (1 / 2), .fin (1 / 2)]⟩

set_option maxRecDepth 100000 in
theorem parse_bufRT : parseGaussianSplatPly bufRT = .success rtVAS := by
  have hscan : headerScan bufRT = some (rtLines, 204) := by decide
  have hdrop : bufRT.drop 204 = rtPayload := by decide
  have hhi : interpretHeader rtLines = rtHI := by decide
  have hparse : parseGaussianSplatPly bufRT = parseWithHeader rtHI rtPayload := by
    simp [parseGaussianSplatPly, parsePayload, hscan, hdrop, hhi]
  have hx : propIndexF rtHI.properties (strBytes "x") = some 0 := by decide
  have hy : propIndexF rtHI.properties (strBytes "y") = some 1 := by decide
  have hz : propIndexF rtHI.properties (strBytes "z") = some 2 := by decide
  have hf0 : propIndexF rtHI.properties (strBytes "f_dc_0") = some 3 := by decide
  have hf1 : propIndexF rtHI.properties (strBytes "f_dc_1") = some 4 := by decide
  have hf2 : propIndexF rtHI.properties (strBytes "f_dc_2") = some 5 := by decide
  have hop : propIndexF rtHI.properties (strBytes "opacity") = some 6 := by decide
  have hsc : propIndexF rtHI.properties (strBytes "scale_0") = none := by decide
  have hcol0 : colorsRead rtPayload true (propIndexF rtHI.properties) 0
      = some (.fin (1 / 2), .fin (1 / 2), .fin (1 / 2)) := by
    rw [colorsRead_sh_eval rtPayload true _ 0 3 4 5 (.fin 0) (.fin 0) (.fin 0)
      hf0 hf1 hf2
      (getF32_at rtPayload 12 0 _ (by decide) (by decide) f32v0)
      (getF32_at rtPayload 16 0 _ (by decide) (by decide) f32v0)
      (getF32_at rtPayload 20 0 _ (by decide) (by decide) f32v0), shChan_fin0]
  have hcol1 : colorsRead rtPayload true (propIndexF rtHI.properties) 28
      = some (.fin 1, .fin 0, .fin 0.78209479177387814) := by
    rw [colorsRead_sh_eval rtPayload true _ 28 3 4 5 (.fin 2) (.fin (-4)) (.fin 1)
      hf0 hf1 hf2
      (getF32_at rtPayload 40 1073741824 _ (by decide) (by decide) f32v2)
      (getF32_at rtPayload 44 3229614080 _ (by decide) (by decide) f32vm4)
      (getF32_at rtPayload 48 1065353216 _ (by decide) (by decide) f32v1),
      shChan_fin2, shChan_finm4, shChan_fin1]
  have hsz0 := sizeRead_default_eval rtPayload true (propIndexF rtHI.properties) 0 hsc
  have hsz1 := sizeRead_default_eval rtPayload true (propIndexF rtHI.properties) 28 hsc
  have hop0 : opacRead rtPayload true (propIndexF rtHI.properties) 0
      = some (.fin (1 / 2)) := by
    rw [opacRead_eval rtPayload true _ 0 6 (.fin 0) hop
      (getF32_at rtPayload 24 0 _ (by decide) (by decide) f32v0), opacVal_fin0]
  have hop1 : opacRead rtPayload true (propIndexF rtHI.properties) 28
      = some (.fin (1 / 2)) := by
    rw [opacRead_eval rtPayload true _ 28 6 (.fin 0) hop
      (getF32_at rtPayload 52 0 _ (by decide) (by decide) f32v0), opacVal_fin0]
  have hrec0 : processRecord rtPayload true (propIndexF rtHI.properties) 0 1 2 28 0
      = some (some ⟨.fin 1, .fin 2, .fin 3, .fin (1 / 2), .fin (1 / 2), .fin (1 / 2),
          .fin 0.01, .fin (1 / 2)⟩) :=
    processRecord_eval rtPayload true _ 0 1 2 28 0 _ _ _ _ _ _ _ _
      (getF32_at rtPayload 0 1065353216 _ (by decide) (by decide) f32v1)
      (getF32_at rtPayload 4 1073741824 _ (by decide) (by decide) f32v2)
      (getF32_at rtPayload 8 1077936128 _ (by decide) (by decide) f32v3)
      rfl hcol0 hsz0 hop0
  have hrec1 : processRecord rtPayload true (propIndexF rtHI.properties) 0 1 2 28 1
      = some (some ⟨.fin 4, .fin 5, .fin 6, .fin 1, .fin 0, .fin 0.78209479177387814,
          .fin 0.01, .fin (1 / 2)⟩) :=
    processRecord_eval rtPayload true _ 0 1 2 28 1 _ _ _ _ _ _ _ _
      (getF32_at rtPayload 28 1082130432 _ (by decide) (by decide) f32v4)
      (getF32_at rtPayload 32 1084227584 _ (by decide) (by decide) f32v5)
      (getF32_at rtPayload 36 1086324736 _ (by decide) (by decide) f32v6)
      rfl hcol1 hsz1 hop1
  have hdec : decodeRecords rtPayload true (propIndexF rtHI.properties) 0 1 2 28 2 0
      emptyAcc = some ⟨rtVAS.positions, rtVAS.colors, rtVAS.sizes, rtVAS.opacities, 2⟩ := by
    rw [decodeRecords_push rtPayload true _ 0 1 2 28 1 0 emptyAcc _ (by decide) hrec0,
        decodeRecords_push rtPayload true _ 0 1 2 28 0 1 _ _ (by decide) hrec1,
        decodeRecords_zero]
    rfl
  have hres : parseWithHeader rtHI rtPayload =
      match decodeRecords rtPayload true (propIndexF rtHI.properties) 0 1 2 28 2 0
          emptyAcc with
      | none => ParseOutcome.crash
      | some acc => if acc.validCount = 0 then .failure else .success acc.toVAS := by
    unfold parseWithHeader
    rw [if_neg (by decide : ¬(rtHI.vertexCount = some 0 ∨ rtHI.properties.length = 0)),
      hx, hy, hz]
    rfl
  rw [hparse, hres, hdec]
  rfl

/-! ### A buffer exercising the unclamped literal-colour path -/

def rgbHeaderStr : String := "ply\nformat binary_little_endian 1.0\nelement vertex 1\nproperty float x\nproperty float y\nproperty float z\nproperty float red\nproperty float green\nproperty float blue\nend_header\n"

/-- One 24-byte record `(0,0,0, -1,0,0)`: a literal red value of -1. -/
def rgbPayload : List Nat :=
  [0, 0, 0, 0, 0, 0, 0, 0, 0, 0, 0, 0, 0, 0, 128, 191, 0, 0, 0, 0, 0, 0, 0, 0]

def bufRGB : List Nat := strBytes rgbHeaderStr ++ rgbPayload

def rgbLines : List (List Nat) :=
  [strBytes "ply", strBytes "format binary_little_endian 1.0",
   strBytes "element vertex 1", strBytes "property float x",
   strBytes "property float y", strBytes "property float z",
   strBytes "property float red", strBytes "property float green",
   strBytes "property float blue", strBytes "end_header"]

def rgbProps : List PlyProp :=
  [⟨some (strBytes "x"), strBytes "float"⟩, ⟨some (strBytes "y"), strBytes "float"⟩,
   ⟨some (strBytes "z"), strBytes "float"⟩,
   ⟨some (strBytes "red"), strBytes "float"⟩,
   ⟨some (strBytes "green"), strBytes "float"⟩,
   ⟨some (strBytes "blue"), strBytes "float"⟩]

def rgbHI : HeaderInfo := ⟨some 1, true, true, rgbProps⟩

/-- Expected decode of `bufRGB`: the red channel passes through as -1. -/
noncomputable def rgbVAS : VertexAttributeSet :=
  ⟨[.fin 0, .fin 0, .fin 0], [.fin (-1), .fin 0, .fin 0], [.fin 0.01], [.fin 0.8]⟩

set_option maxRecDepth 100000 in
theorem parse_bufRGB : parseGaussianSplatPly bufRGB = .success rgbVAS := by
  have hscan : headerScan bufRGB = some (rgbLines, 175) := by decide
  have hdrop : bufRGB.drop 175 = rgbPayload := by decide
  have hhi : interpretHeader rgbLines = rgbHI := by decide
  have hparse : parseGaussianSplatPly bufRGB = parseWithHeader rgbHI rgbPayload := by
    simp [parseGaussianSplatPly, parsePayload, hscan, hdrop, hhi]
  have hx : propIndexF rgbHI.properties (strBytes "x") = some 0 := by decide
  have hy : propIndexF rgbHI.properties (strBytes "y") = some 1 := by decide
  have hz : propIndexF rgbHI.properties (strBytes "z") = some 2 := by decide
  have hf0 : propIndexF rgbHI.properties (strBytes "f_dc_0") = none := by decide
  have hr : propIndexF rgbHI.properties (strBytes "red") = some 3 := by decide
  have hg : propIndexF rgbHI.properties (strBytes "green") = some 4 := by decide
  have hb : propIndexF rgbHI.properties (strBytes "blue") = some 5 := by decide
  have hsc : propIndexF rgbHI.properties (strBytes "scale_0") = none := by decide
  have hopn : propIndexF rgbHI.properties (strBytes "opacity") = none := by decide
  have hcol : colorsRead rgbPayload true (propIndexF rgbHI.properties) 0
      = some (.fin (-1), .fin 0, .fin 0) := by
    rw [colorsRead_rgb_eval rgbPayload true _ 0 3 4 5 (.fin (-1)) (.fin 0) (.fin 0)
      hf0 hr hg hb
      (getF32_at rgbPayload 12 3212836864 _ (by decide) (by decide) f32vm1)
      (getF32_at rgbPayload 16 0 _ (by decide) (by decide) f32v0)
      (getF32_at rgbPayload 20 0 _ (by decide) (by decide) f32v0),
      rgbChan_finm1, rgbChan_fin0]
  have hrec : processRecord rgbPayload true (propIndexF rgbHI.properties) 0 1 2 24 0
      = some (some ⟨.fin 0, .fin 0, .fin 0, .fin (-1), .fin 0, .fin 0,
          .fin 0.01, .fin 0.8⟩) :=
    processRecord_eval rgbPayload true _ 0 1 2 24 0 _ _ _ _ _ _ _ _
      (getF32_at rgbPayload 0 0 _ (by decide) (by decide) f32v0)
      (getF32_at rgbPayload 4 0 _ (by decide) (by decide) f32v0)
      (getF32_at rgbPayload 8 0 _ (by decide) (by decide) f32v0)
      rfl hcol
      (sizeRead_default_eval rgbPayload true _ 0 hsc)
      (opacRead_default_eval rgbPayload true _ 0 hopn)
  have hdec : decodeRecords rgbPayload true (propIndexF rgbHI.properties) 0 1 2 24 1 0
      emptyAcc = some ⟨rgbVAS.positions, rgbVAS.colors, rgbVAS.sizes,
        rgbVAS.opacities, 1⟩ := by
    rw [decodeRecords_push rgbPayload true _ 0 1 2 24 0 0 emptyAcc _ (by decide) hrec,
        decodeRecords_zero]
    rfl
  have hres : parseWithHeader rgbHI rgbPayload =
      match decodeRecords rgbPayload true (propIndexF rgbHI.properties) 0 1 2 24 1 0
          emptyAcc with
      | none => ParseOutcome.crash
      | some acc => if acc.validCount = 0 then .failure else .success acc.toVAS := by
    unfold parseWithHeader
    rw [if_neg (by decide : ¬(rgbHI.vertexCount = some 0 ∨ rgbHI.properties.length = 0)),
      hx, hy, hz]
    rfl
  rw [hparse, hres, hdec]
  rfl

/-! ### A buffer with NaN spherical-harmonic and opacity fields -/

def shnHeaderStr : String := "ply\nformat binary_little_endian 1.0\nelement vertex 1\nproperty float x\nproperty float y\nproperty float z\nproperty float f_dc_0\nproperty float f_dc_1\nproperty float f_dc_2\nproperty float opacity\nend_header\n"

/-- One 28-byte record `(0,0,0, NaN,0,0, NaN)`: finite position, NaN DC term,
NaN raw opacity. -/
def shnPayload : List Nat :=
  [0, 0, 0, 0, 0, 0, 0, 0, 0, 0, 0, 0, 0, 0, 192, 127, 0, 0, 0, 0,
   0, 0, 0, 0, 0, 0, 192, 127]

def bufSHN : List Nat := strBytes shnHeaderStr ++ shnPayload

def shnLines : List (List Nat) :=
  [strBytes "ply", strBytes "format binary_little_endian 1.0",
   strBytes "element vertex 1", strBytes "property float x",
   strBytes "property float y", strBytes "property float z",
   strBytes "property float f_dc_0", strBytes "property float f_dc_1",
   strBytes "property float f_dc_2", strBytes "property float opacity",
   strBytes "end_header"]

def shnHI : HeaderInfo := ⟨some 1, true, true, rtProps⟩

/-- Expected decode of `bufSHN`: the NaN DC term and NaN logit pass through
the clamps as NaN colour and NaN opacity. -/
noncomputable def shnVAS : VertexAttributeSet :=
  ⟨[.fin 0, .fin 0, .fin 0], [.nan, .fin (1 / 2), .fin (1 / 2)], [.fin 0.01], [.nan]⟩

set_option maxRecDepth 100000 in
theorem parse_bufSHN : parseGaussianSplatPly bufSHN = .success shnVAS := by
  have hscan : headerScan bufSHN = some (shnLines, 204) := by decide
  have hdrop : bufSHN.drop 204 = shnPayload := by decide
  have hhi : interpretHeader shnLines = shnHI := by decide
  have hparse : parseGaussianSplatPly bufSHN = parseWithHeader shnHI shnPayload := by
    simp [parseGaussianSplatPly, parsePayload, hscan, hdrop, hhi]
  have hx : propIndexF shnHI.properties (strBytes "x") = some 0 := by decide
  have hy : propIndexF shnHI.properties (strBytes "y") = some 1 := by decide
  have hz : propIndexF shnHI.properties (strBytes "z") = some 2 := by decide
  have hf0 : propIndexF shnHI.properties (strBytes "f_dc_0") = some 3 := by decide
  have hf1 : propIndexF shnHI.properties (strBytes "f_dc_1") = some 4 := by decide
  have hf2 : propIndexF shnHI.properties (strBytes "f_dc_2") = some 5 := by decide
  have hopi : propIndexF shnHI.properties (strBytes "opacity") = some 6 := by decide
  have hsc : propIndexF shnHI.properties (strBytes "scale_0") = none := by decide
  have hcol : colorsRead shnPayload true (propIndexF shnHI.properties) 0
      = some (.nan, .fin (1 / 2), .fin (1 / 2)) := by
    rw [colorsRead_sh_eval shnPayload true _ 0 3 4 5 .nan (.fin 0) (.fin 0)
      hf0 hf1 hf2
      (getF32_at shnPayload 12 2143289344 _ (by decide) (by decide) f32vnan)
      (getF32_at shnPayload 16 0 _ (by decide) (by decide) f32v0)
      (getF32_at shnPayload 20 0 _ (by decide) (by decide) f32v0),
      shChan_nan, shChan_fin0]
  have hop : opacRead shnPayload true (propIndexF shnHI.properties) 0 = some .nan := by
    rw [opacRead_eval shnPayload true _ 0 6 .nan hopi
      (getF32_at shnPayload 24 2143289344 _ (by decide) (by decide) f32vnan),
      opacVal_nan]
  have hrec : processRecord shnPayload true (propIndexF shnHI.properties) 0 1 2 28 0
      = some (some ⟨.fin 0, .fin 0, .fin 0, .nan, .fin (1 / 2), .fin (1 / 2),
          .fin 0.01, .nan⟩) :=
    processRecord_eval shnPayload true _ 0 1 2 28 0 _ _ _ _ _ _ _ _
      (getF32_at shnPayload 0 0 _ (by decide) (by decide) f32v0)
      (getF32_at shnPayload 4 0 _ (by decide) (by decide) f32v0)
      (getF32_at shnPayload 8 0 _ (by decide) (by decide) f32v0)
      rfl hcol
      (sizeRead_default_eval shnPayload true _ 0 hsc)
      hop
  have hdec : decodeRecords shnPayload true (propIndexF shnHI.properties) 0 1 2 28 1 0
      emptyAcc = some ⟨shnVAS.positions, shnVAS.colors, shnVAS.sizes,
        shnVAS.opacities, 1⟩ := by
    rw [decodeRecords_push shnPayload true _ 0 1 2 28 0 0 emptyAcc _ (by decide) hrec,
        decodeRecords_zero]
    rfl
  have hres : parseWithHeader shnHI shnPayload =
      match decodeRecords shnPayload true (propIndexF shnHI.properties) 0 1 2 28 1 0
          emptyAcc with
      | none => ParseOutcome.crash
      | some acc => if acc.validCount = 0 then .failure else .success acc.toVAS := by
    unfold parseWithHeader
    rw [if_neg (by decide : ¬(shnHI.vertexCount = some 0 ∨ shnHI.properties.length = 0)),
      hx, hy, hz]
    rfl
  rw [hparse, hres, hdec]
  rfl

/-- Claim C3: decoding the synthetic little-endian buffer (header
`element vertex 2` with properties `x y z f_dc_0 f_dc_1 f_dc_2 opacity`,
followed by two well-formed 28-byte records) yields exactly 2 output
vertices; each colour channel equals `clamp(0, 1, 0.5 + C0 * f_dc)` with
`C0 = 0.28209479177387814` (DC term 0 gives channel 0.5), and each opacity
equals the logistic `1 / (1 + exp(-raw))` clamped into [0.1, 1.0] (raw 0
gives opacity 0.5). -/
theorem c3_synthetic_roundtrip :
    parseGaussianSplatPly bufRT = .success rtVAS ∧
    rtVAS.sizes.length = 2 ∧
    rtVAS.colors =
      [.fin (max 0 (min 1 (0.5 + C0 * 0))), .fin (max 0 (min 1 (0.5 + C0 * 0))),
       .fin (max 0 (min 1 (0.5 + C0 * 0))), .fin (max 0 (min 1 (0.5 + C0 * 2))),
       .fin (max 0 (min 1 (0.5 + C0 * (-4)))), .fin (max 0 (min 1 (0.5 + C0 * 1)))] ∧
    rtVAS.opacities =
      [.fin (max 0.1 (min 1 (1 / (1 + Real.exp (-0))))),
       .fin (max 0.1 (min 1 (1 / (1 + Real.exp (-0)))))] := by
  refine ⟨parse_bufRT, rfl, ?_, ?_⟩
  · simp only [rtVAS, List.cons.injEq, and_true]
    refine ⟨?_, ?_, ?_, ?_, ?_, ?_⟩ <;> congr 1 <;> norm_num [C0]
  · simp only [rtVAS, List.cons.injEq, and_true]
    constructor <;> congr 1 <;> rw [neg_zero, Real.exp_zero] <;> norm_num

/-- Claim C1 counterexample: colours are NOT always in [0, 1].  A literal
red/green/blue file whose red field is -1 decodes successfully with first
colour channel -1 (the literal path never clamps), and a spherical-harmonic
file with NaN DC term and NaN raw opacity decodes successfully with a NaN
colour channel and a NaN opacity — all outside [0, 1]. -/
theorem c1_colors_not_unit_counterexample :
    (∃ vas, parseGaussianSplatPly bufRGB = .success vas ∧
      vas.colors.getD 0 .nan = .fin (-1) ∧
      ¬ ∀ c ∈ vas.colors, ∃ v : ℝ, c = .fin v ∧ 0 ≤ v ∧ v ≤ 1) ∧
    (∃ vas, parseGaussianSplatPly bufSHN = .success vas ∧
      vas.colors.getD 0 (.fin 0) = .nan ∧ vas.opacities.getD 0 (.fin 0) = .nan ∧
      ¬ ∀ o ∈ vas.opacities, ∃ v : ℝ, o = .fin v ∧ 0 ≤ v ∧ v ≤ 1) := by
  constructor
  · refine ⟨rgbVAS, parse_bufRGB, rfl, ?_⟩
    intro hAll
    obtain ⟨v, hv, h0, h1⟩ := hAll (.fin (-1)) (by simp [rgbVAS])
    have : v = -1 := (JF.fin.inj hv).symm
    rw [this] at h0
    norm_num at h0
  · refine ⟨shnVAS, parse_bufSHN, rfl, rfl, ?_⟩
    intro hAll
    obtain ⟨v, hv, -, -⟩ := hAll .nan (by simp [shnVAS])
    exact JF.noConfusion hv

set_option maxRecDepth 100000 in
/-- Witness for the amended C1 at the synthetic round-trip buffer. -/
theorem c1_decode_output_amended_witness :
    (∃ n, rtVAS.positions.length = 3 * n ∧ rtVAS.colors.length = 3 * n ∧
      rtVAS.sizes.length = n ∧ rtVAS.opacities.length = n ∧ 0 < n) ∧
    (∀ o ∈ rtVAS.opacities, o = .nan ∨ ∃ v : ℝ, o = .fin v ∧ 0 ≤ v ∧ v ≤ 1) ∧
    (shOrDefaultColorPath (propIndexF (interpretHeader rtLines).properties) →
      ∀ c ∈ rtVAS.colors, c = .nan ∨ ∃ v : ℝ, c = .fin v ∧ 0 ≤ v ∧ v ≤ 1) :=
  c1_decode_output_amended bufRT rtLines 204 rtVAS (by decide) parse_bufRT

/-- Claim C10 counterexample: an opacity can escape [0.1, 1.0] — a NaN raw
opacity propagates through the sigmoid and the clamp (JavaScript `Math.min`
and `Math.max` return NaN on NaN input), so the decoded opacity is NaN. -/
theorem c10_opacity_floor_counterexample :
    ∃ vas, parseGaussianSplatPly bufSHN = .success vas ∧
      vas.opacities.getD 0 (.fin 0) = .nan ∧
      ¬ ∀ o ∈ vas.opacities, ∃ v : ℝ, o = .fin v ∧ 0.1 ≤ v ∧ v ≤ 1 := by
  refine ⟨shnVAS, parse_bufSHN, rfl, ?_⟩
  intro hAll
  obtain ⟨v, hv, -, -⟩ := hAll .nan (by simp [shnVAS])
  exact JF.noConfusion hv

set_option maxRecDepth 100000 in
/-- Witness for the amended C10 at the synthetic round-trip buffer, applied
to its first decoded opacity 0.5. -/
theorem c10_opacity_floor_amended_witness :
    (JF.fin (1 / 2) = .nan) ∨
    ∃ v : ℝ, JF.fin (1 / 2) = .fin v ∧ 0.1 ≤ v ∧ v ≤ 1 :=
  c10_opacity_floor_amended bufRT rtLines 204 rtVAS (by decide) parse_bufRT
    (.fin (1 / 2)) (by simp [rtVAS])

set_option maxRecDepth 100000 in
/-- Witness for C4 at the synthetic round-trip buffer: 2 output vertices fit
in the 56-byte payload of 28-byte records. -/
theorem c4_truncated_payload_safe_witness :
    parseGaussianSplatPly bufRT ≠ .crash ∧
    rtVAS.sizes.length ≤
      (bufRT.length - 204) / ((interpretHeader rtLines).properties.length * 4) :=
  ⟨c4_truncated_payload_safe.1 bufRT,
   c4_truncated_payload_safe.2 bufRT rtLines 204 rtVAS (by decide) parse_bufRT⟩

set_option maxRecDepth 100000 in
/-- Witness for C5: a skipped NaN-position record at a concrete payload, and
the count bound at the synthetic round-trip buffer. -/
theorem c5_nonfinite_vertices_skipped_witness :
    processRecord [0, 0, 192, 127] true (fun _ => none) 0 0 0 4 0 = some none ∧
    ∃ n, rtVAS.positions.length = 3 * n ∧ rtVAS.colors.length = 3 * n ∧
      rtVAS.sizes.length = n ∧ rtVAS.opacities.length = n ∧
      n ≤ loopCount (interpretHeader rtLines).vertexCount :=
  ⟨c5_nonfinite_vertices_skipped.1 [0, 0, 192, 127] true (fun _ => none) 0 0 0 4 0
      .nan .nan .nan
      (getF32_at _ 0 2143289344 _ (by decide) (by decide) f32vnan)
      (getF32_at _ 0 2143289344 _ (by decide) (by decide) f32vnan)
      (getF32_at _ 0 2143289344 _ (by decide) (by decide) f32vnan)
      (by simp [JF.isFinite]),
   c5_nonfinite_vertices_skipped.2 bufRT rtLines 204 rtVAS (by decide) parse_bufRT⟩

/-! ### Claim C7: distinguishability of decode failures -/

/-- The failure taxonomy of the specification (§7). -/
inductive DecodeFailure where
  | noHeaderEnd : DecodeFailure
  | emptyOrInvalidHeader : DecodeFailure
  | missingPosition : DecodeFailure
  | noValidVertices : DecodeFailure
deriving DecidableEq

/-- Which failure branch of the post-header code fires (`none` when the
decode succeeds), reconstructed from the parser's control flow: the source
only reports the kind in `console.error` messages, never in the return
value. -/
noncomputable def failureKindWithHeader (h : HeaderInfo) (payload : List Nat) :
    Option DecodeFailure :=
  if h.vertexCount = some 0 ∨ h.properties.length = 0 then
    some .emptyOrInvalidHeader
  else
    match propIndexF h.properties (strBytes "x"),
          propIndexF h.properties (strBytes "y"),
          propIndexF h.properties (strBytes "z") with
    | some xi, some yi, some zi =>
      match decodeRecords payload h.isLittleEndian (propIndexF h.properties)
          xi yi zi (h.properties.length * 4) (loopCount h.vertexCount) 0 emptyAcc with
      | none => none
      | some acc => if acc.validCount = 0 then some .noValidVertices else none
    | _, _, _ => some .missingPosition

/-- Which decode-failure kind an input buffer triggers. -/
noncomputable def failureKindOf (buffer : List Nat) : Option DecodeFailure :=
  match headerScan buffer with
  | none => some .noHeaderEnd
  | some (headerText, headerEnd) =>
    failureKindWithHeader (interpretHeader headerText) (buffer.drop headerEnd)

theorem failureKindWithHeader_failure (h : HeaderInfo) (payload : List Nat)
    (k : DecodeFailure) (hk : failureKindWithHeader h payload = some k) :
    parseWithHeader h payload = .failure := by
  by_cases h0 : h.vertexCount = some 0 ∨ h.properties.length = 0
  · unfold parseWithHeader
    rw [if_pos h0]
  · unfold failureKindWithHeader at hk
    rw [if_neg h0] at hk
    rcases hx : propIndexF h.properties (strBytes "x") with - | xi
    · unfold parseWithHeader
      rw [if_neg h0, hx]
    rcases hy : propIndexF h.properties (strBytes "y") with - | yi
    · unfold parseWithHeader
      rw [if_neg h0, hx, hy]
    rcases hz : propIndexF h.properties (strBytes "z") with - | zi
    · unfold parseWithHeader
      rw [if_neg h0, hx, hy, hz]
    simp only [hx, hy, hz] at hk
    rcases hd : decodeRecords payload h.isLittleEndian (propIndexF h.properties)
        xi yi zi (h.properties.length * 4) (loopCount h.vertexCount) 0 emptyAcc
        with - | acc
    · rw [hd] at hk
      simp at hk
    · rw [hd] at hk
      have hk' : (if acc.validCount = 0 then some DecodeFailure.noValidVertices
          else none) = some k := hk
      have hres : parseWithHeader h payload =
          (if acc.validCount = 0 then ParseOutcome.failure
           else .success acc.toVAS) := by
        unfold parseWithHeader
        rw [if_neg h0, hx, hy, hz]
        show (match decodeRecords payload h.isLittleEndian (propIndexF h.properties)
            xi yi zi (h.properties.length * 4) (loopCount h.vertexCount) 0 emptyAcc with
          | none => ParseOutcome.crash
          | some acc => if acc.validCount = 0 then ParseOutcome.failure
              else .success acc.toVAS) = _
        rw [hd]
      by_cases hvc : acc.validCount = 0
      · rw [hres, if_pos hvc]
      · rw [if_neg hvc] at hk'
        simp at hk'

/-- A buffer declaring `element vertex 0` (the empty/invalid-header failure). -/
def bufZeroVert : List Nat :=
  strBytes "ply\nformat binary_little_endian 1.0\nelement vertex 0\nproperty float x\nend_header\n"

def zvLines : List (List Nat) :=
  [strBytes "ply", strBytes "format binary_little_endian 1.0",
   strBytes "element vertex 0", strBytes "property float x",
   strBytes "end_header"]

def zvHI : HeaderInfo :=
  ⟨some 0, true, true, [⟨some (strBytes "x"), strBytes "float"⟩]⟩

/-- Claim C7 counterexample: two buffers failing for different kinds — a
missing `end_header` sentinel and a zero vertex count — produce the SAME
caller-visible value (the modelled `null`): the returned value does not
identify which failure kind occurred. -/
theorem c7_failure_kinds_counterexample :
    failureKindOf bufNoEnd = some .noHeaderEnd ∧
    failureKindOf bufZeroVert = some .emptyOrInvalidHeader ∧
    DecodeFailure.noHeaderEnd ≠ DecodeFailure.emptyOrInvalidHeader ∧
    parseGaussianSplatPly bufNoEnd = parseGaussianSplatPly bufZeroVert := by
  have h1 : headerScan bufNoEnd = none := by decide
  have h2 : headerScan bufZeroVert = some (zvLines, 81) := by decide
  have h3 : interpretHeader zvLines = zvHI := by decide
  refine ⟨?_, ?_, by decide, ?_⟩
  · simp [failureKindOf, h1]
  · simp [failureKindOf, h2, h3, failureKindWithHeader, zvHI]
  · have hA : parseGaussianSplatPly bufNoEnd = .failure := by
      simp [parseGaussianSplatPly, h1]
    have hB : parseGaussianSplatPly bufZeroVert = .failure := by
      simp [parseGaussianSplatPly, parsePayload, h2, h3, parseWithHeader, zvHI]
    rw [hA, hB]

/-- Claim C7, amended: the caller can distinguish success from failure, but
not the failure kinds from each other — every decode-failure kind returns
the same value `null`; the kinds are reported only in console diagnostics
(lines 299, 327, 340, 417), never in the return value. -/
theorem c7_failure_collapse_amended :
    (∀ (buffer : List Nat) (k : DecodeFailure),
        failureKindOf buffer = some k → parseGaussianSplatPly buffer = .failure) ∧
    (∀ (b1 b2 : List Nat) (k1 k2 : DecodeFailure),
        failureKindOf b1 = some k1 → failureKindOf b2 = some k2 →
        parseGaussianSplatPly b1 = parseGaussianSplatPly b2) := by
  have hmain : ∀ (buffer : List Nat) (k : DecodeFailure),
      failureKindOf buffer = some k → parseGaussianSplatPly buffer = .failure := by
    intro buffer k hk
    rcases hscan : headerScan buffer with - | ⟨lines, he⟩
    · simp [parseGaussianSplatPly, hscan]
    · unfold failureKindOf at hk
      simp only [hscan] at hk
      have hfail := failureKindWithHeader_failure _ _ _ hk
      simp [parseGaussianSplatPly, parsePayload, hscan, hfail]
  exact ⟨hmain, fun b1 b2 k1 k2 h1 h2 => by rw [hmain b1 k1 h1, hmain b2 k2 h2]⟩

set_option maxRecDepth 100000 in
/-- Witness for the amended C7 at the two concrete failing buffers. -/
theorem c7_failure_collapse_amended_witness :
    parseGaussianSplatPly bufNoEnd = .failure ∧
    parseGaussianSplatPly bufNoEnd = parseGaussianSplatPly bufZeroVert := by
  have h1 : failureKindOf bufNoEnd = some .noHeaderEnd := by
    simp [failureKindOf, (by decide : headerScan bufNoEnd = none)]
  have h2 : failureKindOf bufZeroVert = some .emptyOrInvalidHeader := by
    have hs : headerScan bufZeroVert = some (zvLines, 81) := by decide
    have hh : interpretHeader zvLines = zvHI := by decide
    simp [failureKindOf, hs, hh, failureKindWithHeader, zvHI]
  exact ⟨c7_failure_collapse_amended.1 bufNoEnd .noHeaderEnd h1,
    c7_failure_collapse_amended.2 bufNoEnd bufZeroVert .noHeaderEnd
      .emptyOrInvalidHeader h1 h2⟩

/-! ### Claim C9: stale scene loads -/

/-- Claim C9 (code bug in `loadGaussianSplat`, lines 192-271): the effect has
no generation counter, no cancellation signal and no cleanup function, and
its completion handler replaces the displayed scene unconditionally.  With
load 0 started, then load 1 started (both pending), if the newer load 1's
fetch+parse completes first and the stale load 0's completes last, the
displayed scene is load 0's: a stale earlier scene overwrites the newer one,
contradicting both the claim and §5 of the specification. -/
theorem c9_stale_load_overwrites :
    runCompletions [1, 0] = some 0 ∧ (some 0 : Option Nat) ≠ some 1 ∧
    applyCompletion (some 1) 0 = some 0 :=
  ⟨rfl, by decide, rfl⟩
